import Mathlib

/-!
Verification development for `tdsMD5retag.py`, a tool that reconciles the
`<timestamp>.<digest>` filename convention with file contents and metadata.

The Python source is shallowly embedded: the filesystem is an explicit state
(a directory list plus an association list from `(directory, baseName)` keys
to file entries), the MD5 digest value is an abstract parameter
`H : Bytes → Nat` (its 128-bit value; the hex encoding of `hexdigest()` is
concrete), and each function of the script becomes a pure Lean function
returning the new state together with a tagged outcome and a trace of the
filesystem mutations it performed.
-/

set_option autoImplicit false

namespace TdsMD5Retag

/-- File contents as a byte list (the value passed to `m.update(fd.read())`). -/
abbrev Bytes := List Nat

/-- Lowercase hex digit character for a nibble, as produced by `hexdigest()`. -/
def hexDigitChar (n : Nat) : Char :=
  if n < 10 then Char.ofNat (48 + n) else Char.ofNat (87 + n)

/-- Big-endian list of `k` lowercase hex digits of `n` (mod `16^k`). -/
def hexChars : Nat → Nat → List Char
  | 0, _ => []
  | k + 1, n => hexChars k (n / 16) ++ [hexDigitChar (n % 16)]

/-- Models `hashlib.md5(...).hexdigest()`: the 32 lowercase hex characters of
the 128-bit digest value `n`. The digest value itself is abstract (a parameter
`H : Bytes → Nat` below); only the hex rendering is concrete. -/
def hexdigest (n : Nat) : String :=
  String.mk (hexChars 32 n)

/-- Decimal digit test, as in the character class `[0-9]`. -/
def isDigitCh (c : Char) : Bool :=
  48 ≤ c.toNat && c.toNat ≤ 57

/-- Hex digit test, as in the character class `[0-9A-Fa-f]`. -/
def isHexCh (c : Char) : Bool :=
  isDigitCh c || (97 ≤ c.toNat && c.toNat ≤ 102) || (65 ≤ c.toNat && c.toNat ≤ 70)

/-- Lowercase hex digit test (`[0-9a-f]`), used to state that `hexdigest`
output is lowercase hex. -/
def isLowerHexCh (c : Char) : Bool :=
  isDigitCh c || (97 ≤ c.toNat && c.toNat ≤ 102)

/-- The characters after the last `'/'`, as `posixpath.basename`. -/
def basenameChars (p : List Char) : List Char :=
  (p.reverse.takeWhile (fun c => c ≠ '/')).reverse

/-- The characters up to and including the last `'/'` (empty when there is
none), the `p[:i]` of `posixpath.dirname`. -/
def headChars (p : List Char) : List Char :=
  (p.reverse.dropWhile (fun c => c ≠ '/')).reverse

/-- Models `posixpath.dirname`: the head up to the last slash, stripped of
trailing slashes unless it consists only of slashes. -/
def dirnameChars (p : List Char) : List Char :=
  let head := headChars p
  if head ≠ [] ∧ ¬ head.all (fun c => c = '/') then
    (head.reverse.dropWhile (fun c => c = '/')).reverse
  else head

/-- Models `posixpath.basename`. -/
def basenameStr (p : String) : String :=
  String.mk (basenameChars p.data)

/-- Models `saneDirname` (source lines 54-62): `None` for the empty path,
`'.'` when `os.path.dirname` reports an empty directory, the dirname
otherwise. -/
def saneDirname (path : String) : Option String :=
  if path = "" then none
  else
    let dir := String.mk (dirnameChars path.data)
    if dir = "" then some "." else some dir

/-- A parsed `struct_time`-like record: year, month, day, hour, minute,
second, as decoded from a `yyyymmddhhmmss` code. -/
structure TM where
  y : Nat
  mo : Nat
  d : Nat
  h : Nat
  mi : Nat
  s : Nat
deriving DecidableEq

/-- Decimal value of a digit list. -/
def digitsVal (l : List Char) : Nat :=
  l.foldl (fun a c => 10 * a + (c.toNat - 48)) 0

/-- Gregorian leap-year test, as `datetime.date` uses. -/
def leapYear (y : Nat) : Bool :=
  (y % 4 == 0 && y % 100 != 0) || y % 400 == 0

/-- Number of days in a month, as `datetime.date` validates. -/
def daysInMonth (y mo : Nat) : Nat :=
  if mo = 2 then (if leapYear y then 29 else 28)
  else if mo = 4 ∨ mo = 6 ∨ mo = 9 ∨ mo = 11 then 30
  else 31

/-- Models `time.strptime(code, '%Y%m%d%H%M%S')` on the 14-digit inputs this
program supplies (the regex group of `[0-9]{14}`). On a 14-digit string the
`_strptime` field regexes are forced into a 4+2+2+2+2+2 split; the field
ranges are month 01-12, day 01-31, hour 00-23, minute 00-59 and second 00-61
(leap seconds 60 and 61 are accepted), and the julian-day computation then
constructs `datetime.date(y, mo, d)`, which additionally enforces year ≥ 1
and a strict day-of-month bound. `none` models the raised `ValueError`. -/
def strptime14 (code : String) : Option TM :=
  let l := code.data
  if l.length = 14 ∧ l.all isDigitCh then
    let y := digitsVal (l.take 4)
    let mo := digitsVal ((l.drop 4).take 2)
    let d := digitsVal ((l.drop 6).take 2)
    let hh := digitsVal ((l.drop 8).take 2)
    let mi := digitsVal ((l.drop 10).take 2)
    let ss := digitsVal ((l.drop 12).take 2)
    if 1 ≤ y ∧ 1 ≤ mo ∧ mo ≤ 12 ∧ 1 ≤ d ∧ d ≤ daysInMonth y mo ∧
        hh ≤ 23 ∧ mi ≤ 59 ∧ ss ≤ 61 then
      some ⟨y, mo, d, hh, mi, ss⟩
    else none
  else none

/-- Days since the Unix epoch of a civil date (valid for `y ≥ 1`), by the
standard era-based civil-calendar computation. -/
def daysFromCivil (y mo d : Nat) : Int :=
  let yy : Nat := if mo ≤ 2 then y - 1 else y
  let era := yy / 400
  let yoe := yy - era * 400
  let mp := (mo + 9) % 12
  let doy := (153 * mp + 2) / 5 + d - 1
  let doe := yoe * 365 + yoe / 4 - yoe / 100 + doy
  (era * 146097 + doe : Int) - 719468

/-- Models `int(time.mktime(tds))` with the local timezone fixed at UTC (none
of the verified properties depend on the zone offset). Out-of-range seconds
(60, 61) overflow into the following minute, which is exactly `mktime`'s
normalization. -/
def mktimeModel (t : TM) : Int :=
  86400 * daysFromCivil t.y t.mo t.d + 3600 * t.h + 60 * t.mi + t.s

/-- One file on disk: its immutable content bytes, flags telling whether the
OS-level operations on it succeed (`openable`: `open(..., "rb")` succeeds;
`readFails`: `fd.read()` raises `IOError`; `utimeOk`: `os.utime` succeeds;
`renameOk`: `os.rename` of it succeeds; `removeOk`: `os.remove` succeeds),
and its modification/access timestamps. -/
structure FileEntry where
  content : Bytes
  openable : Bool
  readFails : Bool
  utimeOk : Bool
  renameOk : Bool
  removeOk : Bool
  mtime : Int
  atime : Int
deriving DecidableEq

/-- The filesystem: the set of existing directories and an association list
from `(directory, baseName)` keys to file entries. -/
structure FS where
  dirs : List String
  files : List ((String × String) × FileEntry)
deriving DecidableEq

/-- First entry with the given key. -/
def lookupFile : List ((String × String) × FileEntry) → String × String → Option FileEntry
  | [], _ => none
  | p :: t, k => if p.1 = k then some p.2 else lookupFile t k

/-- Remove every entry with the given key. -/
def eraseKey : List ((String × String) × FileEntry) → String × String → List ((String × String) × FileEntry)
  | [], _ => []
  | p :: t, k => if p.1 = k then eraseKey t k else p :: eraseKey t k

/-- Set both timestamps of an entry, as `os.utime(f, (t, t))`. -/
def touchTimes (t : Int) (e : FileEntry) : FileEntry :=
  { e with mtime := t, atime := t }

/-- Apply `touchTimes` to every entry with the given key. -/
def setTimesList : List ((String × String) × FileEntry) → String × String → Int → List ((String × String) × FileEntry)
  | [], _, _ => []
  | p :: l, k, t => (if p.1 = k then (p.1, touchTimes t p.2) else p) :: setTimesList l k t

/-- Look a file up by directory and base name. -/
def FS.lookup (fs : FS) (dir name : String) : Option FileEntry :=
  lookupFile fs.files (dir, name)

/-- Models `os.remove(name)` in `dir`. -/
def removeFile (fs : FS) (dir name : String) : FS :=
  { fs with files := eraseKey fs.files (dir, name) }

/-- Models `os.utime(name, (t, t))` in `dir`. -/
def setTimes (fs : FS) (dir name : String) (t : Int) : FS :=
  { fs with files := setTimesList fs.files (dir, name) t }

/-- Models `os.rename(old, nw)` in `dir`, where `e` is the entry stored under
`old`: the old key disappears, any entry at the target is clobbered, and the
entry reappears under the new name. -/
def renameFile (fs : FS) (dir old nw : String) (e : FileEntry) : FS :=
  { fs with files := eraseKey (eraseKey fs.files (dir, old)) (dir, nw) ++ [((dir, nw), e)] }

/-- Number of files in `dir` whose name starts with `tds`, as
`glob.glob(tds + '*')` counts after the `chdir` (directories nested inside
`dir` are not part of the model; none of the verified properties involve
them). -/
def countTds (fs : FS) (dir tds : String) : Nat :=
  (fs.files.filter (fun p => decide (p.1.1 = dir) && tds.data.isPrefixOf p.1.2.data)).length

/-- Result of `md5stringForFile`: the hex digest string, `False` (the open
failed and the bare `except` reported it), or an uncaught exception. -/
inductive DigestResult where
  | ok (md5 : String)
  | failed
  | crashed
deriving DecidableEq

/-- Models `md5stringForFile` (source lines 92-101). Only the `open` call is
inside the `try`/bare-`except`: a missing file or an unopenable one yields
`False` (reported to stderr), but an `IOError` raised by `fd.read()` is
uncaught and aborts the run — modelled by `crashed`. -/
def md5stringForFile (H : Bytes → Nat) (fs : FS) (dir fileName : String) : DigestResult :=
  match fs.lookup dir fileName with
  | none => .failed
  | some e =>
    if !e.openable then .failed
    else if e.readFails then .crashed
    else .ok (hexdigest (H e.content))

/-- Result of `tdsTouch`: `True`, `False`, or an uncaught exception. -/
inductive TouchResult where
  | applied
  | failed
  | crashed
deriving DecidableEq

/-- Models `tdsTouch` (source lines 69-88). Steps, in source order:
`time.strptime` on the code (invalid → report, `False`); the
`os.path.isfile` check — whose error branch executes
`sys.stderr.write("fileName '%s' invalid", fileName)`, a two-argument call
to `write`, which raises `TypeError` instead of reporting, modelled by
`crashed`; then `time.mktime` and `os.utime` (an `OSError` there → report,
`False`). -/
def tdsTouch (fs : FS) (ymdhms dir fileName : String) : FS × TouchResult :=
  match strptime14 ymdhms with
  | none => (fs, .failed)
  | some tm =>
    match fs.lookup dir fileName with
    | none => (fs, .crashed)
    | some e =>
      if e.utimeOk then (setTimes fs dir fileName (mktimeModel tm), .applied)
      else (fs, .failed)

/-- Result of matching the base name against the two filename patterns:
`([0-9]{14})\.([0-9A-Fa-f]{32})$` and then `([0-9]{14})()$` (the group 2 of
the legacy pattern is the empty string). -/
inductive ParseForm where
  | fullForm (tds dig : String)
  | legacyForm (tds : String)
  | invalid
deriving DecidableEq

/-- Models the two sequential `re.match` attempts of source lines 134-141 on
the base name (which, coming from a stripped command-line argument, never
ends in a newline, so `$` is end-of-string). -/
def parseBase (base : String) : ParseForm :=
  let l := base.data
  if l.length = 47 ∧ (l.take 14).all isDigitCh ∧ (l.drop 14).take 1 = ['.'] ∧
      (l.drop 15).all isHexCh then
    .fullForm (String.mk (l.take 14)) (String.mk (l.drop 15))
  else if l.length = 14 ∧ l.all isDigitCh then
    .legacyForm (String.mk l)
  else .invalid

/-- The per-path error taxonomy of the specification, tagging each
`return False` site of the source. -/
inductive Err where
  | NoSuchDirectory
  | NoSuchFile
  | UnrecognizedFilenameForm
  | DigestComputationError
  | NameCollision
  | RenameFailed
  | TimestampApplyFailed
deriving DecidableEq

/-- Outcome of processing one path: success with an optional rename notice
`(tds, oldDigest, newDigest)` (the `print` of source line 185), a reported
failure (`return False` after a stderr message), or an uncaught exception
aborting the run. -/
inductive Outcome where
  | ok (notice : Option (String × String × String))
  | fail (e : Err)
  | crash
deriving DecidableEq

/-- A performed filesystem mutation. -/
inductive Effect where
  | renamed (dir old nw : String)
  | deleted (dir name : String)
  | touched (dir name : String)
deriving DecidableEq

/-- Result of one `tdsMD5retagFunc` call: the filesystem afterwards, the
outcome, the mutations actually performed, and whether the multiple-TDS
warning of source lines 150-152 fired. -/
structure ProcResult where
  fs : FS
  outcome : Outcome
  effects : List Effect
  warned : Bool
deriving DecidableEq

/-- The timestamp-enforcement tail of `tdsMD5retagFunc` (source lines
178-187): `tdsTouch` on the (possibly renamed) file, then the rename notice
on stdout when the name changed. -/
def touchPhase (fs : FS) (tds dir name : String)
    (notice : Option (String × String × String)) (effs : List Effect)
    (warned : Bool) : ProcResult :=
  match tdsTouch fs tds dir name with
  | (fs1, .applied) => ⟨fs1, .ok notice, effs ++ [.touched dir name], warned⟩
  | (fs1, .failed) => ⟨fs1, .fail .TimestampApplyFailed, effs, warned⟩
  | (fs1, .crashed) => ⟨fs1, .crash, effs, warned⟩

/-- The `os.rename` step of source lines 172-176 (`e` is the entry of
`base`): on success continue into the timestamp phase, on failure report
`RenameFailed`. -/
def renamePhase (fs : FS) (e : FileEntry) (tds dir base proposed : String)
    (notice : Option (String × String × String)) (effs : List Effect)
    (warned : Bool) : ProcResult :=
  if e.renameOk then
    touchPhase (renameFile fs dir base proposed e) tds dir proposed notice
      (effs ++ [.renamed dir base proposed]) warned
  else ⟨fs, .fail .RenameFailed, effs, warned⟩

/-- The body of `tdsMD5retagFunc` after directory, existence and filename
checks (source lines 147-187): the glob warning, the digest of `base`, the
canonical `proposed` name, the duplicate/collision resolution and rename,
and the timestamp phase. `e` is the entry of `base`, `oldDig` is
`m.group(2)`. -/
def mainPhase (H : Bytes → Nat) (fs : FS) (dir base : String) (e : FileEntry)
    (tds oldDig : String) : ProcResult :=
  let warned := countTds fs dir tds != 1
  match md5stringForFile H fs dir base with
  | .crashed => ⟨fs, .crash, [], warned⟩
  | .failed => ⟨fs, .fail .DigestComputationError, [], warned⟩
  | .ok md5 =>
    let proposed := tds ++ "." ++ md5
    if base = proposed then
      touchPhase fs tds dir proposed none [] warned
    else
      match fs.lookup dir proposed with
      | some pe =>
        match md5stringForFile H fs dir proposed with
        | .crashed => ⟨fs, .crash, [], warned⟩
        | .failed => ⟨fs, .fail .DigestComputationError, [], warned⟩
        | .ok md5p =>
          if md5 = md5p then
            if pe.removeOk then
              renamePhase (removeFile fs dir proposed) e tds dir base proposed
                (some (tds, oldDig, md5)) [.deleted dir proposed] warned
            else ⟨fs, .crash, [], warned⟩
          else ⟨fs, .fail .NameCollision, [], warned⟩
      | none => renamePhase fs e tds dir base proposed (some (tds, oldDig, md5)) [] warned

/-- Models `tdsMD5retagFunc` (source lines 105-187). The ambient
`os.chdir(dir)` of the source (guarded by the preceding `isdir` check) only
re-roots relative names at `dir`, so the model passes `dir` explicitly.
`saneDirname` returning `None` for the empty path makes the source call
`os.path.isdir(None)`, which raises `TypeError` — modelled by `crash`. -/
def tdsMD5retagFunc (H : Bytes → Nat) (fs : FS) (fileName : String) : ProcResult :=
  match saneDirname fileName with
  | none => ⟨fs, .crash, [], false⟩
  | some dir =>
    if dir ∈ fs.dirs then
      let base := basenameStr fileName
      match fs.lookup dir base with
      | none => ⟨fs, .fail .NoSuchFile, [], false⟩
      | some e =>
        match parseBase base with
        | .invalid => ⟨fs, .fail .UnrecognizedFilenameForm, [], false⟩
        | .fullForm tds dig => mainPhase H fs dir base e tds dig
        | .legacyForm tds => mainPhase H fs dir base e tds ""
    else ⟨fs, .fail .NoSuchDirectory, [], false⟩

/-- Modelled from the spec: "parses exactly `YYYYMMDDHHMMSS` as a local-time
calendar instant; fails if the string does not represent a valid date/time
(e.g., month 13, day 32) — this must be a strict calendar validation, not a
lenient/overflowing one". A 14-digit code represents a valid calendar
date-time exactly when its month, day-of-month (against the real month
length), hour, minute and second fields are all in range, seconds running
only to 59. -/
def specValidStrict (code : String) : Bool :=
  let l := code.data
  decide (l.length = 14) && l.all isDigitCh &&
    (let y := digitsVal (l.take 4)
     let mo := digitsVal ((l.drop 4).take 2)
     let d := digitsVal ((l.drop 6).take 2)
     let hh := digitsVal ((l.drop 8).take 2)
     let mi := digitsVal ((l.drop 10).take 2)
     let ss := digitsVal ((l.drop 12).take 2)
     decide (1 ≤ y ∧ 1 ≤ mo ∧ mo ≤ 12 ∧ 1 ≤ d ∧ d ≤ daysInMonth y mo ∧
       hh ≤ 23 ∧ mi ≤ 59 ∧ ss ≤ 59))

/-- The validity notion the code actually enforces: as `specValidStrict`,
except that the seconds field may run to 61 (the leap-second allowance of
`strptime`'s `%S`), overflow being normalized forward by `mktime`. -/
def specValid61 (code : String) : Bool :=
  let l := code.data
  decide (l.length = 14) && l.all isDigitCh &&
    (let y := digitsVal (l.take 4)
     let mo := digitsVal ((l.drop 4).take 2)
     let d := digitsVal ((l.drop 6).take 2)
     let hh := digitsVal ((l.drop 8).take 2)
     let mi := digitsVal ((l.drop 10).take 2)
     let ss := digitsVal ((l.drop 12).take 2)
     decide (1 ≤ y ∧ 1 ≤ mo ∧ mo ≤ 12 ∧ 1 ≤ d ∧ d ≤ daysInMonth y mo ∧
       hh ≤ 23 ∧ mi ≤ 59 ∧ ss ≤ 61))

/-- Whether an effect list contains a rename. -/
def hasRename (l : List Effect) : Bool :=
  l.any fun eff => match eff with | .renamed _ _ _ => true | _ => false

/-- Number of renames in an effect trace. -/
def countRenames (l : List Effect) : Nat :=
  (l.filter fun eff => match eff with | .renamed _ _ _ => true | _ => false).length

/-- Number of deletions in an effect trace. -/
def countDeletes (l : List Effect) : Nat :=
  (l.filter fun eff => match eff with | .deleted _ _ => true | _ => false).length

/-- Number of timestamp updates in an effect trace. -/
def countTouches (l : List Effect) : Nat :=
  (l.filter fun eff => match eff with | .touched _ _ => true | _ => false).length

/-- Every file of `fs2` carries the content bytes of some file of `fs`:
processing never creates or modifies content bytes. -/
def contentsFrom (fs fs2 : FS) : Prop :=
  ∀ k e2, lookupFile fs2.files k = some e2 →
    ∃ k1 e1, lookupFile fs.files k1 = some e1 ∧ e1.content = e2.content

/-! ### Concrete fixtures used to instantiate the theorems -/

/-- A digest function that ignores content (all digests collide). -/
def hZero : Bytes → Nat := fun _ => 0

/-- A digest function separating contents by length. -/
def hLen : Bytes → Nat := fun c => c.length

/-- A well-behaved file entry with content `[1, 2]`. -/
def entryW : FileEntry := ⟨[1, 2], true, false, true, true, true, 0, 0⟩

/-- A well-behaved file entry whose content `[1, 2, 3]` has a different
`hLen` digest from `entryW`. -/
def entryW2 : FileEntry := ⟨[1, 2, 3], true, false, true, true, true, 5, 5⟩

/-- A well-behaved file entry whose content `[3, 4]` differs from `entryW`
but has the same `hLen` digest. -/
def entryW3 : FileEntry := ⟨[3, 4], true, false, true, true, true, 7, 7⟩

/-- An entry whose `open` fails (e.g. permission denied). -/
def entryNoOpen : FileEntry := ⟨[1], false, false, true, true, true, 0, 0⟩

/-- An entry whose `open` succeeds but whose `read` raises `IOError`. -/
def entryReadFail : FileEntry := ⟨[1], true, true, true, true, true, 0, 0⟩

/-- A legacy-form base name. -/
def tdsW : String := "20230101000000"

/-- The canonical name of `entryW` under `hZero`. -/
def nameWZ : String := "20230101000000." ++ hexdigest 0

/-- The canonical name of `entryW` under `hLen`. -/
def nameWL : String := "20230101000000." ++ hexdigest 2

/-- One legacy-form file in the current directory. -/
def fsLegacy : FS := ⟨["."], [((".", tdsW), entryW)]⟩

/-- One already-canonical (under `hZero`) file. -/
def fsCanon : FS := ⟨["."], [((".", nameWZ), entryW)]⟩

/-- A legacy file plus a different-content occupant of its canonical
`hLen` name. -/
def fsColl : FS := ⟨["."], [((".", tdsW), entryW), ((".", nameWL), entryW2)]⟩

/-- A legacy file plus an equal-digest (under `hLen`) occupant of its
canonical name. -/
def fsDup : FS := ⟨["."], [((".", tdsW), entryW), ((".", nameWL), entryW3)]⟩

/-- A legacy file that cannot be opened. -/
def fsNoOpen : FS := ⟨["."], [((".", tdsW), entryNoOpen)]⟩

/-- A legacy file whose read raises. -/
def fsReadFail : FS := ⟨["."], [((".", tdsW), entryReadFail)]⟩

/-- A single file named `f`, for exercising `tdsTouch` directly. -/
def fsF : FS := ⟨["."], [((".", "f"), entryW)]⟩

/-- A filesystem with no directories at all (in particular no `.`). -/
def fsEmpty : FS := ⟨[], []⟩

/-! ### Basic lemmas about the filesystem operations -/

theorem lookupFile_nil (k : String × String) : lookupFile [] k = none := rfl

theorem lookupFile_cons (p : (String × String) × FileEntry)
    (l : List ((String × String) × FileEntry)) (k : String × String) :
    lookupFile (p :: l) k = if p.1 = k then some p.2 else lookupFile l k := rfl

theorem lookupFile_eraseKey (l : List ((String × String) × FileEntry))
    (k k' : String × String) :
    lookupFile (eraseKey l k) k' = if k' = k then none else lookupFile l k' := by
  induction l with
  | nil => simp [eraseKey, lookupFile]
  | cons p t ih =>
    by_cases hk : k' = k
    · subst hk
      by_cases hp : p.1 = k'
      · simp [eraseKey, hp, ih]
      · simp [eraseKey, hp, lookupFile, ih]
    · by_cases hp : p.1 = k
      · have hp2 : p.1 ≠ k' := fun hh => hk (hh.symm.trans hp)
        simp [eraseKey, hp, lookupFile, hp2, ih, hk, Ne.symm hk]
      · simp [eraseKey, hp, lookupFile, ih, hk]

theorem lookupFile_append (l m : List ((String × String) × FileEntry))
    (k : String × String) :
    lookupFile (l ++ m) k =
      match lookupFile l k with
      | some e => some e
      | none => lookupFile m k := by
  induction l with
  | nil => simp [lookupFile]
  | cons p t ih =>
    by_cases hp : p.1 = k
    · simp [lookupFile, hp]
    · simp [lookupFile, hp, ih]

theorem lookupFile_setTimesList (l : List ((String × String) × FileEntry))
    (k k' : String × String) (t : Int) :
    lookupFile (setTimesList l k t) k' =
      if k' = k then (lookupFile l k').map (touchTimes t) else lookupFile l k' := by
  induction l with
  | nil => simp [setTimesList, lookupFile]
  | cons p tl ih =>
    by_cases hk : k' = k
    · subst hk
      by_cases hp : p.1 = k'
      · simp [setTimesList, hp, lookupFile, ih]
      · simp [setTimesList, hp, lookupFile, ih]
    · by_cases hp : p.1 = k
      · have hp2 : p.1 ≠ k' := fun hh => hk (hh.symm.trans hp)
        simp [setTimesList, hp, lookupFile, hp2, ih, hk, Ne.symm hk]
      · simp [setTimesList, hp, lookupFile, ih, hk]

theorem dirs_removeFile (fs : FS) (d n : String) : (removeFile fs d n).dirs = fs.dirs := rfl

theorem dirs_setTimes (fs : FS) (d n : String) (t : Int) : (setTimes fs d n t).dirs = fs.dirs := rfl

theorem dirs_renameFile (fs : FS) (d o nw : String) (e : FileEntry) :
    (renameFile fs d o nw e).dirs = fs.dirs := rfl

theorem FS_lookup_removeFile (fs : FS) (d n d' n' : String) :
    (removeFile fs d n).lookup d' n' =
      if (d', n') = (d, n) then none else fs.lookup d' n' := by
  simp [removeFile, FS.lookup, lookupFile_eraseKey]

theorem FS_lookup_setTimes (fs : FS) (d n : String) (t : Int) (d' n' : String) :
    (setTimes fs d n t).lookup d' n' =
      if (d', n') = (d, n) then (fs.lookup d' n').map (touchTimes t)
      else fs.lookup d' n' := by
  simp [setTimes, FS.lookup, lookupFile_setTimesList]

theorem FS_lookup_renameFile (fs : FS) (d o nw : String) (e : FileEntry) (d' n' : String) :
    (renameFile fs d o nw e).lookup d' n' =
      if (d', n') = (d, nw) then some e
      else if (d', n') = (d, o) then none
      else fs.lookup d' n' := by
  simp only [renameFile, FS.lookup, lookupFile_append, lookupFile_eraseKey]
  by_cases h1 : (d', n') = (d, nw)
  · simp [h1, lookupFile]
  · by_cases h2 : (d', n') = (d, o)
    · have hno : ¬ o = nw := fun hh => h1 (h2.trans (by rw [hh]))
      simp [h2, lookupFile, hno, Ne.symm hno]
    · cases hl : lookupFile fs.files (d', n') with
      | none => simp [h1, h2, hl, lookupFile, Ne.symm h1]
      | some e2 => simp [h1, h2, hl, lookupFile]

/-! ### Lemmas about digests, parsing and the touch step -/

theorem hexChars_all_lower (k n : Nat) : (hexChars k n).all isLowerHexCh = true := by
  induction k generalizing n with
  | zero => rfl
  | succ k ih =>
    have hlt : n % 16 < 16 := Nat.mod_lt _ (by norm_num)
    have hdig : isLowerHexCh (hexDigitChar (n % 16)) = true := by
      interval_cases h : n % 16 <;> decide
    simp [hexChars, List.all_append, ih, hdig]

theorem hexdigest_lower (n : Nat) : (hexdigest n).data.all isLowerHexCh = true := by
  simp [hexdigest, hexChars_all_lower]

theorem hexChars_length (k n : Nat) : (hexChars k n).length = k := by
  induction k generalizing n with
  | zero => rfl
  | succ k ih => simp [hexChars, ih]

theorem String_data_append (a b : String) : (a ++ b).data = a.data ++ b.data := rfl

theorem ne_append_dot (s t : String) : s ≠ s ++ "." ++ t := by
  intro h
  have h2 := congrArg (fun x : String => x.data.length) h
  simp only [String_data_append, List.length_append] at h2
  have h4 : (".": String).data.length = 1 := rfl
  rw [h4] at h2
  omega

theorem take_dot_drop (l : List Char) (hdot : (l.drop 14).take 1 = ['.']) :
    l = l.take 14 ++ '.' :: l.drop 15 := by
  conv_lhs => rw [← List.take_append_drop 14 l]
  congr 1
  conv_lhs => rw [← List.take_append_drop 1 (l.drop 14)]
  rw [hdot, List.drop_drop]
  norm_num

theorem parseBase_full_eq (base tds dig : String)
    (h : parseBase base = ParseForm.fullForm tds dig) :
    base = tds ++ "." ++ dig ∧ tds.data = base.data.take 14 ∧
      dig.data = base.data.drop 15 ∧ base.data.length = 47 := by
  simp only [parseBase] at h
  split at h
  · next hc =>
    cases h
    obtain ⟨hlen, hdig14, hdot, hhex⟩ := hc
    refine ⟨?_, rfl, rfl, hlen⟩
    apply String.ext
    simp only [String_data_append]
    rw [List.append_assoc, List.singleton_append]
    exact take_dot_drop base.data hdot
  · split at h
    · cases h
    · cases h

theorem parseBase_legacy_eq (base tds : String)
    (h : parseBase base = ParseForm.legacyForm tds) :
    base = tds ∧ base.data.length = 14 ∧ base.data.all isDigitCh = true := by
  simp only [parseBase] at h
  split at h
  · cases h
  · split at h
    · next hc =>
      cases h
      exact ⟨rfl, hc.1, hc.2⟩
    · cases h

theorem md5_ok (H : Bytes → Nat) (fs : FS) (dir f : String) (e : FileEntry)
    (h : fs.lookup dir f = some e) (ho : e.openable = true) (hr : e.readFails = false) :
    md5stringForFile H fs dir f = DigestResult.ok (hexdigest (H e.content)) := by
  simp [md5stringForFile, h, ho, hr]

theorem md5_failed_of_unopenable (H : Bytes → Nat) (fs : FS) (dir f : String) (e : FileEntry)
    (h : fs.lookup dir f = some e) (ho : e.openable = false) :
    md5stringForFile H fs dir f = DigestResult.failed := by
  simp [md5stringForFile, h, ho]

theorem md5_failed_of_missing (H : Bytes → Nat) (fs : FS) (dir f : String)
    (h : fs.lookup dir f = none) :
    md5stringForFile H fs dir f = DigestResult.failed := by
  simp [md5stringForFile, h]

theorem tdsTouch_applied (fs : FS) (tds dir f : String) (tm : TM) (e : FileEntry)
    (hs : strptime14 tds = some tm) (h : fs.lookup dir f = some e)
    (hu : e.utimeOk = true) :
    tdsTouch fs tds dir f = (setTimes fs dir f (mktimeModel tm), TouchResult.applied) := by
  simp [tdsTouch, hs, h, hu]

theorem tdsTouch_failed_of_invalid (fs : FS) (tds dir f : String)
    (hs : strptime14 tds = none) :
    tdsTouch fs tds dir f = (fs, TouchResult.failed) := by
  simp [tdsTouch, hs]

theorem contentsFrom_refl (fs : FS) : contentsFrom fs fs :=
  fun k e2 hk => ⟨k, e2, hk, rfl⟩

theorem contentsFrom_setTimes (fs fs2 : FS) (d n : String) (t : Int)
    (h : contentsFrom fs fs2) : contentsFrom fs (setTimes fs2 d n t) := by
  intro k e2 hk
  rw [show (setTimes fs2 d n t).files = setTimesList fs2.files (d, n) t from rfl,
    lookupFile_setTimesList] at hk
  by_cases hkk : k = (d, n)
  · rw [if_pos hkk] at hk
    cases hl : lookupFile fs2.files k with
    | none => rw [hl] at hk; simp at hk
    | some e1 =>
      rw [hl] at hk
      have hk4 : some (touchTimes t e1) = some e2 := hk
      have hk3 : touchTimes t e1 = e2 := by injection hk4
      obtain ⟨k1, e0, hk1, hc⟩ := h k e1 hl
      refine ⟨k1, e0, hk1, ?_⟩
      rw [← hk3]
      exact hc
  · rw [if_neg hkk] at hk
    exact h k e2 hk

theorem contentsFrom_removeFile (fs fs2 : FS) (d n : String)
    (h : contentsFrom fs fs2) : contentsFrom fs (removeFile fs2 d n) := by
  intro k e2 hk
  rw [show (removeFile fs2 d n).files = eraseKey fs2.files (d, n) from rfl,
    lookupFile_eraseKey] at hk
  by_cases hkk : k = (d, n)
  · rw [if_pos hkk] at hk
    cases hk
  · rw [if_neg hkk] at hk
    exact h k e2 hk

theorem contentsFrom_renameFile (fs fs2 : FS) (d o nw : String) (e : FileEntry)
    (h : contentsFrom fs fs2)
    (he : ∃ k1 e1, lookupFile fs.files k1 = some e1 ∧ e1.content = e.content) :
    contentsFrom fs (renameFile fs2 d o nw e) := by
  intro k e2 hk
  rw [show (renameFile fs2 d o nw e).files =
      eraseKey (eraseKey fs2.files (d, o)) (d, nw) ++ [((d, nw), e)] from rfl,
    lookupFile_append] at hk
  cases hl : lookupFile (eraseKey (eraseKey fs2.files (d, o)) (d, nw)) k with
  | some e3 =>
    rw [hl] at hk
    have hk4 : some e3 = some e2 := hk
    have hk3 : e3 = e2 := by injection hk4
    subst hk3
    rw [lookupFile_eraseKey] at hl
    by_cases h1 : k = (d, nw)
    · rw [if_pos h1] at hl
      cases hl
    · rw [if_neg h1, lookupFile_eraseKey] at hl
      by_cases h2 : k = (d, o)
      · rw [if_pos h2] at hl
        cases hl
      · rw [if_neg h2] at hl
        exact h k e3 hl
  | none =>
    rw [hl] at hk
    have hk4 : lookupFile [((d, nw), e)] k = some e2 := hk
    simp only [lookupFile] at hk4
    by_cases h1 : ((d, nw) : String × String) = k
    · rw [if_pos h1] at hk4
      obtain ⟨k1, e1, hk1, hc⟩ := he
      cases hk4
      exact ⟨k1, e1, hk1, hc⟩
    · rw [if_neg h1] at hk4
      cases hk4

theorem md5_ok_inversion (H : Bytes → Nat) (fs : FS) (dir f m : String) (e : FileEntry)
    (hb : fs.lookup dir f = some e) (h : md5stringForFile H fs dir f = DigestResult.ok m) :
    m = hexdigest (H e.content) := by
  simp only [md5stringForFile, hb] at h
  by_cases ho : e.openable = true
  · by_cases hr : e.readFails = true
    · simp [ho, hr] at h
    · simp only [ho, hr, Bool.not_true, if_false] at h
      simp at h
      exact h.symm
  · have ho2 : e.openable = false := by simpa using ho
    simp [ho2] at h

/-- Reduction of `tdsMD5retagFunc` to `mainPhase` once the directory exists,
the file exists and the base name parses. -/
theorem retag_mainPhase (H : Bytes → Nat) (fs : FS) (fileName dir tds oldDig : String)
    (e : FileEntry)
    (hdir : saneDirname fileName = some dir) (hd : dir ∈ fs.dirs)
    (hb : fs.lookup dir (basenameStr fileName) = some e)
    (hp : parseBase (basenameStr fileName) = ParseForm.fullForm tds oldDig ∨
      (parseBase (basenameStr fileName) = ParseForm.legacyForm tds ∧ oldDig = "")) :
    tdsMD5retagFunc H fs fileName = mainPhase H fs dir (basenameStr fileName) e tds oldDig := by
  rcases hp with hp | ⟨hp, ho⟩
  · simp [tdsMD5retagFunc, hdir, hd, hb, hp]
  · subst ho
    simp [tdsMD5retagFunc, hdir, hd, hb, hp]

/-- In the collision branch (the canonical name is occupied by a file of a
different digest) `mainPhase` reports `NameCollision` and does nothing. -/
theorem mainPhase_collision (H : Bytes → Nat) (fs : FS) (dir base tds oldDig : String)
    (e pe : FileEntry)
    (hb : fs.lookup dir base = some e)
    (ho : e.openable = true) (hr : e.readFails = false)
    (hne : base ≠ tds ++ "." ++ hexdigest (H e.content))
    (hpe : fs.lookup dir (tds ++ "." ++ hexdigest (H e.content)) = some pe)
    (hpo : pe.openable = true) (hpr : pe.readFails = false)
    (hdiff : hexdigest (H pe.content) ≠ hexdigest (H e.content)) :
    mainPhase H fs dir base e tds oldDig =
      ⟨fs, Outcome.fail Err.NameCollision, [], countTds fs dir tds != 1⟩ := by
  have h1 := md5_ok H fs dir base e hb ho hr
  have h2 := md5_ok H fs dir (tds ++ "." ++ hexdigest (H e.content)) pe hpe hpo hpr
  have hd2 : ¬ hexdigest (H e.content) = hexdigest (H pe.content) := fun hh => hdiff hh.symm
  simp [mainPhase, h1, h2, hne, hd2, hpe]

/-- C1: for every path whose computed canonical name `proposed` is already
occupied by a different file whose content digest differs from the processed
file's digest, `process` fails with `NameCollision` and performs no
filesystem mutation: no rename, no delete, and no timestamp-metadata change,
leaving both files untouched. -/
theorem collision_aborts_without_mutation (H : Bytes → Nat) (fs : FS)
    (fileName dir tds oldDig : String) (e pe : FileEntry)
    (hdir : saneDirname fileName = some dir) (hd : dir ∈ fs.dirs)
    (hb : fs.lookup dir (basenameStr fileName) = some e)
    (hp : parseBase (basenameStr fileName) = ParseForm.fullForm tds oldDig ∨
      (parseBase (basenameStr fileName) = ParseForm.legacyForm tds ∧ oldDig = ""))
    (ho : e.openable = true) (hr : e.readFails = false)
    (hne : basenameStr fileName ≠ tds ++ "." ++ hexdigest (H e.content))
    (hpe : fs.lookup dir (tds ++ "." ++ hexdigest (H e.content)) = some pe)
    (hpo : pe.openable = true) (hpr : pe.readFails = false)
    (hdiff : hexdigest (H pe.content) ≠ hexdigest (H e.content)) :
    (tdsMD5retagFunc H fs fileName).fs = fs ∧
    (tdsMD5retagFunc H fs fileName).outcome = Outcome.fail Err.NameCollision ∧
    (tdsMD5retagFunc H fs fileName).effects = [] := by
  rw [retag_mainPhase H fs fileName dir tds oldDig e hdir hd hb hp,
    mainPhase_collision H fs dir (basenameStr fileName) tds oldDig e pe hb ho hr hne hpe
      hpo hpr hdiff]
  exact ⟨rfl, rfl, rfl⟩

/-- Witness for C1 at a concrete filesystem: a legacy file of content
`[1, 2]` whose canonical name under `hLen` is occupied by a file of content
`[1, 2, 3]` (differing digest). -/
theorem collision_aborts_without_mutation_witness :
    (tdsMD5retagFunc hLen fsColl "20230101000000").fs = fsColl ∧
    (tdsMD5retagFunc hLen fsColl "20230101000000").outcome = Outcome.fail Err.NameCollision ∧
    (tdsMD5retagFunc hLen fsColl "20230101000000").effects = [] :=
  collision_aborts_without_mutation hLen fsColl "20230101000000" "." "20230101000000" ""
    entryW entryW2 (by decide) (by decide) (by decide)
    (Or.inr ⟨by decide, rfl⟩) (by decide) (by decide) (by decide) (by decide)
    (by decide) (by decide) (by decide)

/-- C9: for every non-empty path with no directory component, the path
splitter yields the current directory `'.'` as the directory, so such a path
is never rejected as having an invalid or empty directory; and a path whose
directory component does not exist fails with `NoSuchDirectory`. -/
theorem bare_path_resolves_to_dot (H : Bytes → Nat) (fs : FS) (path dir : String) :
    (path ≠ "" → (∀ c ∈ path.data, c ≠ '/') → saneDirname path = some ".") ∧
    (saneDirname path = some dir → dir ∉ fs.dirs →
      tdsMD5retagFunc H fs path = ⟨fs, Outcome.fail Err.NoSuchDirectory, [], false⟩) := by
  constructor
  · intro hne hch
    have hhead : headChars path.data = [] := by
      simp only [headChars, List.reverse_eq_nil_iff]
      rw [List.dropWhile_eq_nil_iff]
      intro x hx
      simpa using hch x (List.mem_reverse.mp hx)
    have hdn : dirnameChars path.data = [] := by simp [dirnameChars, hhead]
    unfold saneDirname
    rw [if_neg hne]
    simp only [hdn]
    rfl
  · intro hdir hnd
    simp [tdsMD5retagFunc, hdir, hnd]

/-- Witness for C9: a bare legacy file name resolves to `'.'`, and on a
filesystem without a `'.'` directory the processing fails with
`NoSuchDirectory` and no mutation. -/
theorem bare_path_resolves_to_dot_witness :
    saneDirname "20230101000000" = some "." ∧
    tdsMD5retagFunc hZero fsEmpty "20230101000000" =
      ⟨fsEmpty, Outcome.fail Err.NoSuchDirectory, [], false⟩ := by
  have h := bare_path_resolves_to_dot hZero fsEmpty "20230101000000" "."
  have h1 := h.1 (by decide) (by decide)
  exact ⟨h1, h.2 h1 (by decide)⟩

/-- C10: calling `tdsTouch` with a valid timestamp code and a file name that
does not exist as a regular file reaches the error-reporting branch of
source line 77, whose `sys.stderr.write("fileName '%s' invalid", fileName)`
passes two arguments to `write` and therefore raises `TypeError` instead of
returning `False`: the call crashes rather than returning the failure
result. -/
theorem touch_missing_file_crashes :
    (strptime14 "20200101000000").isSome = true ∧
    tdsTouch fsF "20200101000000" "." "missing" = (fsF, TouchResult.crashed) := by
  decide

/-- C3 (counterexample): the 14-digit code `20230101000061` does not
represent a valid calendar date-time (its seconds field is 61), yet
`strptime` accepts it and `tdsTouch` applies it — normalized forward by
`mktime` onto 00:01:01 — changing the file's metadata instead of failing
with `TimestampApplyFailed`. -/
theorem leap_second_accepted :
    specValidStrict "20230101000061" = false ∧
    strptime14 "20230101000061" = some ⟨2023, 1, 1, 0, 0, 61⟩ ∧
    tdsTouch fsF "20230101000061" "." "f" =
      (setTimes fsF "." "f" (mktimeModel ⟨2023, 1, 1, 0, 0, 61⟩), TouchResult.applied) ∧
    (tdsTouch fsF "20230101000061" "." "f").1 ≠ fsF ∧
    mktimeModel ⟨2023, 1, 1, 0, 0, 61⟩ = mktimeModel ⟨2023, 1, 1, 0, 1, 1⟩ := by
  decide

/-- C3 (amended): parsing a 14-digit timestamp code succeeds exactly when
the code is a valid calendar date-time with the seconds field allowed to run
to 61 (strict calendar validation of year, month, day-in-month, hour and
minute; lenient leap-second seconds 60-61, normalized forward by `mktime`);
for every code outside that set, `tdsTouch` fails with
`TimestampApplyFailed` and no metadata change. -/
theorem strptime_strict_except_leap (fs : FS) (dir f code : String) :
    (strptime14 code).isSome = specValid61 code ∧
    (specValid61 code = false → tdsTouch fs code dir f = (fs, TouchResult.failed)) := by
  have h1 : (strptime14 code).isSome = specValid61 code := by
    simp only [strptime14, specValid61]
    split
    · next htrue =>
      split
      · next hB => simp [htrue.1, htrue.2, hB]
      · next hB => simp [htrue.1, htrue.2, hB]
    · next hfalse =>
      by_cases hL : code.data.length = 14
      · have hA : ¬ (code.data.all isDigitCh = true) := fun hh => hfalse ⟨hL, hh⟩
        simp [hA]
      · have hL2 : ¬ code.length = 14 := hL
        simp [hL2]
  refine ⟨h1, fun hv => ?_⟩
  have h2 : strptime14 code = none := by
    cases hs : strptime14 code with
    | none => rfl
    | some tm =>
      rw [hs, hv] at h1
      simp at h1
  exact tdsTouch_failed_of_invalid fs code dir f h2

/-- Witness for C3 (amended), at the code `20230231120000` (February 31):
the strict day-in-month validation rejects it and `tdsTouch` fails without
touching anything. -/
theorem strptime_strict_except_leap_witness :
    (strptime14 "20230231120000").isSome = specValid61 "20230231120000" ∧
    tdsTouch fsF "20230231120000" "." "f" = (fsF, TouchResult.failed) := by
  have h := strptime_strict_except_leap fsF "." "f" "20230231120000"
  exact ⟨h.1, h.2 (by decide)⟩

/-- C4 (counterexample): a file whose `open` succeeds but whose `fd.read()`
raises does not surface as `DigestComputationError`: the exception is raised
outside the `try` of `md5stringForFile` and escapes uncaught, aborting the
run. -/
theorem read_failure_escapes :
    md5stringForFile hZero fsReadFail "." "20230101000000" = DigestResult.crashed ∧
    (tdsMD5retagFunc hZero fsReadFail "20230101000000").outcome = Outcome.crash ∧
    (tdsMD5retagFunc hZero fsReadFail "20230101000000").outcome ≠
      Outcome.fail Err.DigestComputationError := by
  decide

/-- C4 (amended): a file that cannot be opened — a missing file, or one
whose `open` is denied — surfaces as `DigestComputationError` from the
digest function, and `process` then fails for that path with no mutation
(the run continuing with the next path); an I/O error raised while reading,
in contrast, escapes as an uncaught exception (see the counterexample). -/
theorem open_failure_digest_error (H : Bytes → Nat) (fs : FS)
    (fileName dir tds oldDig f2 : String) (e : FileEntry)
    (hdir : saneDirname fileName = some dir) (hd : dir ∈ fs.dirs)
    (hb : fs.lookup dir (basenameStr fileName) = some e)
    (hp : parseBase (basenameStr fileName) = ParseForm.fullForm tds oldDig ∨
      (parseBase (basenameStr fileName) = ParseForm.legacyForm tds ∧ oldDig = ""))
    (ho : e.openable = false) :
    (fs.lookup dir f2 = none → md5stringForFile H fs dir f2 = DigestResult.failed) ∧
    md5stringForFile H fs dir (basenameStr fileName) = DigestResult.failed ∧
    tdsMD5retagFunc H fs fileName =
      ⟨fs, Outcome.fail Err.DigestComputationError, [], countTds fs dir tds != 1⟩ := by
  have hm := md5_failed_of_unopenable H fs dir (basenameStr fileName) e hb ho
  refine ⟨fun hnone => md5_failed_of_missing H fs dir f2 hnone, hm, ?_⟩
  rw [retag_mainPhase H fs fileName dir tds oldDig e hdir hd hb hp]
  simp [mainPhase, hm]

/-- Witness for C4 (amended): a legacy file with `open` permission denied
fails with `DigestComputationError` and no mutation. -/
theorem open_failure_digest_error_witness :
    (fsNoOpen.lookup "." "zzz" = none → md5stringForFile hZero fsNoOpen "." "zzz" = DigestResult.failed) ∧
    md5stringForFile hZero fsNoOpen "." (basenameStr "20230101000000") = DigestResult.failed ∧
    tdsMD5retagFunc hZero fsNoOpen "20230101000000" =
      ⟨fsNoOpen, Outcome.fail Err.DigestComputationError, [], countTds fsNoOpen "." "20230101000000" != 1⟩ :=
  open_failure_digest_error hZero fsNoOpen "20230101000000" "." "20230101000000" "" "zzz"
    entryNoOpen (by decide) (by decide) (by decide) (Or.inr ⟨by decide, rfl⟩) (by decide)

/-- The three possible results of the timestamp phase. -/
theorem touchPhase_cases (fs : FS) (tds dir name : String)
    (notice : Option (String × String × String)) (effs : List Effect) (w : Bool) :
    (∃ t, touchPhase fs tds dir name notice effs w =
        ⟨setTimes fs dir name t, Outcome.ok notice, effs ++ [Effect.touched dir name], w⟩) ∨
    touchPhase fs tds dir name notice effs w =
      ⟨fs, Outcome.fail Err.TimestampApplyFailed, effs, w⟩ ∨
    touchPhase fs tds dir name notice effs w = ⟨fs, Outcome.crash, effs, w⟩ := by
  unfold touchPhase tdsTouch
  cases hs : strptime14 tds with
  | none => right; left; rfl
  | some tm =>
    cases hb : fs.lookup dir name with
    | none => right; right; rfl
    | some e =>
      by_cases hu : e.utimeOk = true
      · left
        exact ⟨mktimeModel tm, by simp [hu]⟩
      · right; left
        simp [hu]

/-- The four possible results of the rename-then-timestamp phase. -/
theorem renamePhase_cases (fs : FS) (e : FileEntry) (tds dir base proposed : String)
    (notice : Option (String × String × String)) (effs : List Effect) (w : Bool) :
    (∃ t, renamePhase fs e tds dir base proposed notice effs w =
        ⟨setTimes (renameFile fs dir base proposed e) dir proposed t, Outcome.ok notice,
          effs ++ [Effect.renamed dir base proposed, Effect.touched dir proposed], w⟩) ∨
    renamePhase fs e tds dir base proposed notice effs w =
      ⟨renameFile fs dir base proposed e, Outcome.fail Err.TimestampApplyFailed,
        effs ++ [Effect.renamed dir base proposed], w⟩ ∨
    renamePhase fs e tds dir base proposed notice effs w =
      ⟨renameFile fs dir base proposed e, Outcome.crash,
        effs ++ [Effect.renamed dir base proposed], w⟩ ∨
    renamePhase fs e tds dir base proposed notice effs w =
      ⟨fs, Outcome.fail Err.RenameFailed, effs, w⟩ := by
  unfold renamePhase
  by_cases hrn : e.renameOk = true
  · rw [if_pos hrn]
    rcases touchPhase_cases (renameFile fs dir base proposed e) tds dir proposed notice
        (effs ++ [Effect.renamed dir base proposed]) w with ⟨t, ht⟩ | ht | ht
    · left
      refine ⟨t, ?_⟩
      rw [ht]
      simp
    · right; left
      rw [ht]
    · right; right; left
      rw [ht]
  · right; right; right
    rw [if_neg hrn]

/-- Taking the first 14 characters of a canonical `<tds>.<digest>` name
recovers the timestamp code. -/
theorem take14_of_canonical (tds md5 : String) (htds14 : tds.data.length = 14) :
    ((tds ++ "." ++ md5) : String).data.take 14 = tds.data := by
  have h1 : tds.data.take 14 = tds.data := by rw [← htds14, List.take_length]
  rw [String_data_append, String_data_append, List.append_assoc,
    List.take_append_eq_append_take, h1, htds14]
  simp

/-- Frame property of `mainPhase`: at most one rename, one delete, one
timestamp update; a rename preserves the first 14 characters of the name; a
delete only removes a file whose digest equals the processed file's digest;
and no content bytes are created or changed. -/
theorem mainPhase_frame (H : Bytes → Nat) (fs : FS) (dir base tds oldDig : String)
    (e : FileEntry)
    (hb : fs.lookup dir base = some e)
    (htds : base.data.take 14 = tds.data) (htds14 : tds.data.length = 14) :
    countRenames (mainPhase H fs dir base e tds oldDig).effects ≤ 1 ∧
    countDeletes (mainPhase H fs dir base e tds oldDig).effects ≤ 1 ∧
    countTouches (mainPhase H fs dir base e tds oldDig).effects ≤ 1 ∧
    (∀ d o nw, Effect.renamed d o nw ∈ (mainPhase H fs dir base e tds oldDig).effects →
      o.data.take 14 = nw.data.take 14) ∧
    (∀ d n, Effect.deleted d n ∈ (mainPhase H fs dir base e tds oldDig).effects →
      ∃ pe e1, fs.lookup d n = some pe ∧ fs.lookup d base = some e1 ∧
        hexdigest (H pe.content) = hexdigest (H e1.content)) ∧
    contentsFrom fs (mainPhase H fs dir base e tds oldDig).fs := by
  have htake : ∀ m : String, base.data.take 14 = ((tds ++ "." ++ m) : String).data.take 14 :=
    fun m => by rw [htds, take14_of_canonical tds m htds14]
  cases hm : md5stringForFile H fs dir base with
  | crashed =>
    have hre : mainPhase H fs dir base e tds oldDig =
        ⟨fs, Outcome.crash, [], countTds fs dir tds != 1⟩ := by
      simp [mainPhase, hm]
    rw [hre]
    refine ⟨by simp [countRenames], by simp [countDeletes], by simp [countTouches],
      ?_, ?_, contentsFrom_refl fs⟩
    · intro d o nw hmem
      simp at hmem
    · intro d n hmem
      simp at hmem
  | failed =>
    have hre : mainPhase H fs dir base e tds oldDig =
        ⟨fs, Outcome.fail Err.DigestComputationError, [], countTds fs dir tds != 1⟩ := by
      simp [mainPhase, hm]
    rw [hre]
    refine ⟨by simp [countRenames], by simp [countDeletes], by simp [countTouches],
      ?_, ?_, contentsFrom_refl fs⟩
    · intro d o nw hmem
      simp at hmem
    · intro d n hmem
      simp at hmem
  | ok md5 =>
    have hmd5 : md5 = hexdigest (H e.content) := md5_ok_inversion H fs dir base md5 e hb hm
    by_cases hbp : base = tds ++ "." ++ md5
    · have hre : mainPhase H fs dir base e tds oldDig =
          touchPhase fs tds dir (tds ++ "." ++ md5) none [] (countTds fs dir tds != 1) := by
        simp only [mainPhase, hm]
        rw [if_pos hbp]
      rw [hre]
      rcases touchPhase_cases fs tds dir (tds ++ "." ++ md5) none []
          (countTds fs dir tds != 1) with ⟨t, ht⟩ | ht | ht <;> rw [ht]
      · refine ⟨by simp [countRenames], by simp [countDeletes], by simp [countTouches],
          ?_, ?_, contentsFrom_setTimes fs fs dir (tds ++ "." ++ md5) t (contentsFrom_refl fs)⟩
        · intro d o nw hmem
          simp at hmem
        · intro d n hmem
          simp at hmem
      · refine ⟨by simp [countRenames], by simp [countDeletes], by simp [countTouches],
          ?_, ?_, contentsFrom_refl fs⟩
        · intro d o nw hmem
          simp at hmem
        · intro d n hmem
          simp at hmem
      · refine ⟨by simp [countRenames], by simp [countDeletes], by simp [countTouches],
          ?_, ?_, contentsFrom_refl fs⟩
        · intro d o nw hmem
          simp at hmem
        · intro d n hmem
          simp at hmem
    · cases hpe : fs.lookup dir (tds ++ "." ++ md5) with
      | some pe =>
        cases hm2 : md5stringForFile H fs dir (tds ++ "." ++ md5) with
        | crashed =>
          have hre : mainPhase H fs dir base e tds oldDig =
              ⟨fs, Outcome.crash, [], countTds fs dir tds != 1⟩ := by
            simp [mainPhase, hm, hbp, hpe, hm2]
          rw [hre]
          refine ⟨by simp [countRenames], by simp [countDeletes], by simp [countTouches],
            ?_, ?_, contentsFrom_refl fs⟩
          · intro d o nw hmem
            simp at hmem
          · intro d n hmem
            simp at hmem
        | failed =>
          have hre : mainPhase H fs dir base e tds oldDig =
              ⟨fs, Outcome.fail Err.DigestComputationError, [], countTds fs dir tds != 1⟩ := by
            simp [mainPhase, hm, hbp, hpe, hm2]
          rw [hre]
          refine ⟨by simp [countRenames], by simp [countDeletes], by simp [countTouches],
            ?_, ?_, contentsFrom_refl fs⟩
          · intro d o nw hmem
            simp at hmem
          · intro d n hmem
            simp at hmem
        | ok md5p =>
          have hmd5p : md5p = hexdigest (H pe.content) :=
            md5_ok_inversion H fs dir (tds ++ "." ++ md5) md5p pe hpe hm2
          by_cases heq : md5 = md5p
          · by_cases hrm : pe.removeOk = true
            · have hre : mainPhase H fs dir base e tds oldDig =
                  renamePhase (removeFile fs dir (tds ++ "." ++ md5)) e tds dir base
                    (tds ++ "." ++ md5) (some (tds, oldDig, md5))
                    [Effect.deleted dir (tds ++ "." ++ md5)] (countTds fs dir tds != 1) := by
                simp [mainPhase, hm, hbp, hpe, hm2, hrm]
                exact fun hcon => absurd heq hcon
              rw [hre]
              have hdel : ∀ d n, Effect.deleted d n ∈
                  [Effect.deleted dir (tds ++ "." ++ md5)] →
                  ∃ pe2 e1, fs.lookup d n = some pe2 ∧ fs.lookup d base = some e1 ∧
                    hexdigest (H pe2.content) = hexdigest (H e1.content) := by
                intro d n hmem
                simp at hmem
                obtain ⟨hd1, hn1⟩ := hmem
                subst hd1
                subst hn1
                exact ⟨pe, e, hpe, hb, by rw [← hmd5p, ← heq, hmd5]⟩
              have hcf : contentsFrom fs (removeFile fs dir (tds ++ "." ++ md5)) :=
                contentsFrom_removeFile fs fs dir (tds ++ "." ++ md5) (contentsFrom_refl fs)
              rcases renamePhase_cases (removeFile fs dir (tds ++ "." ++ md5)) e tds dir base
                  (tds ++ "." ++ md5) (some (tds, oldDig, md5))
                  [Effect.deleted dir (tds ++ "." ++ md5)]
                  (countTds fs dir tds != 1) with ⟨t, ht⟩ | ht | ht | ht <;> rw [ht]
              · refine ⟨by simp [countRenames], by simp [countDeletes], by simp [countTouches],
                  ?_, ?_, contentsFrom_setTimes fs _ dir (tds ++ "." ++ md5) t
                    (contentsFrom_renameFile fs _ dir base (tds ++ "." ++ md5) e hcf
                      ⟨(dir, base), e, hb, rfl⟩)⟩
                · intro d o nw hmem
                  simp at hmem
                  obtain ⟨-, h2, h3⟩ := hmem
                  subst h2
                  subst h3
                  exact htake md5
                · intro d n hmem
                  simp at hmem
                  obtain ⟨hd1, hn1⟩ := hmem
                  subst hd1
                  subst hn1
                  exact ⟨pe, e, hpe, hb, by rw [← hmd5p, ← heq, hmd5]⟩
              · refine ⟨by simp [countRenames], by simp [countDeletes], by simp [countTouches],
                  ?_, ?_, contentsFrom_renameFile fs _ dir base (tds ++ "." ++ md5) e hcf
                    ⟨(dir, base), e, hb, rfl⟩⟩
                · intro d o nw hmem
                  simp at hmem
                  obtain ⟨-, h2, h3⟩ := hmem
                  subst h2
                  subst h3
                  exact htake md5
                · intro d n hmem
                  simp at hmem
                  obtain ⟨hd1, hn1⟩ := hmem
                  subst hd1
                  subst hn1
                  exact ⟨pe, e, hpe, hb, by rw [← hmd5p, ← heq, hmd5]⟩
              · refine ⟨by simp [countRenames], by simp [countDeletes], by simp [countTouches],
                  ?_, ?_, contentsFrom_renameFile fs _ dir base (tds ++ "." ++ md5) e hcf
                    ⟨(dir, base), e, hb, rfl⟩⟩
                · intro d o nw hmem
                  simp at hmem
                  obtain ⟨-, h2, h3⟩ := hmem
                  subst h2
                  subst h3
                  exact htake md5
                · intro d n hmem
                  simp at hmem
                  obtain ⟨hd1, hn1⟩ := hmem
                  subst hd1
                  subst hn1
                  exact ⟨pe, e, hpe, hb, by rw [← hmd5p, ← heq, hmd5]⟩
              · exact ⟨by simp [countRenames], by simp [countDeletes], by simp [countTouches],
                  by intro d o nw hmem; simp at hmem, hdel, hcf⟩
            · have hre : mainPhase H fs dir base e tds oldDig =
                  ⟨fs, Outcome.crash, [], countTds fs dir tds != 1⟩ := by
                simp [mainPhase, hm, hbp, hpe, hm2, hrm]
                exact heq
              rw [hre]
              refine ⟨by simp [countRenames], by simp [countDeletes], by simp [countTouches],
                ?_, ?_, contentsFrom_refl fs⟩
              · intro d o nw hmem
                simp at hmem
              · intro d n hmem
                simp at hmem
          · have hre : mainPhase H fs dir base e tds oldDig =
                ⟨fs, Outcome.fail Err.NameCollision, [], countTds fs dir tds != 1⟩ := by
              simp [mainPhase, hm, hbp, hpe, hm2]
              exact fun hcon => absurd hcon heq
            rw [hre]
            refine ⟨by simp [countRenames], by simp [countDeletes], by simp [countTouches],
              ?_, ?_, contentsFrom_refl fs⟩
            · intro d o nw hmem
              simp at hmem
            · intro d n hmem
              simp at hmem
      | none =>
        have hre : mainPhase H fs dir base e tds oldDig =
            renamePhase fs e tds dir base (tds ++ "." ++ md5) (some (tds, oldDig, md5)) []
              (countTds fs dir tds != 1) := by
          simp [mainPhase, hm, hbp, hpe]
        rw [hre]
        rcases renamePhase_cases fs e tds dir base (tds ++ "." ++ md5)
            (some (tds, oldDig, md5)) [] (countTds fs dir tds != 1) with
            ⟨t, ht⟩ | ht | ht | ht <;> rw [ht]
        · refine ⟨by simp [countRenames], by simp [countDeletes], by simp [countTouches],
            ?_, ?_, contentsFrom_setTimes fs _ dir (tds ++ "." ++ md5) t
              (contentsFrom_renameFile fs fs dir base (tds ++ "." ++ md5) e
                (contentsFrom_refl fs) ⟨(dir, base), e, hb, rfl⟩)⟩
          · intro d o nw hmem
            simp at hmem
            obtain ⟨-, h2, h3⟩ := hmem
            subst h2
            subst h3
            exact htake md5
          · intro d n hmem
            simp at hmem
        · refine ⟨by simp [countRenames], by simp [countDeletes], by simp [countTouches],
            ?_, ?_, contentsFrom_renameFile fs fs dir base (tds ++ "." ++ md5) e
              (contentsFrom_refl fs) ⟨(dir, base), e, hb, rfl⟩⟩
          · intro d o nw hmem
            simp at hmem
            obtain ⟨-, h2, h3⟩ := hmem
            subst h2
            subst h3
            exact htake md5
          · intro d n hmem
            simp at hmem
        · refine ⟨by simp [countRenames], by simp [countDeletes], by simp [countTouches],
            ?_, ?_, contentsFrom_renameFile fs fs dir base (tds ++ "." ++ md5) e
              (contentsFrom_refl fs) ⟨(dir, base), e, hb, rfl⟩⟩
          · intro d o nw hmem
            simp at hmem
            obtain ⟨-, h2, h3⟩ := hmem
            subst h2
            subst h3
            exact htake md5
          · intro d n hmem
            simp at hmem
        · refine ⟨by simp [countRenames], by simp [countDeletes], by simp [countTouches],
            ?_, ?_, contentsFrom_refl fs⟩
          · intro d o nw hmem
            simp at hmem
          · intro d n hmem
            simp at hmem

/-- C8: every call of `process` performs at most one rename, at most one
delete (only of a verified duplicate: a file at the canonical name whose
digest equals the processed file's), and at most one timestamp update; the
content bytes of files are never created or modified, and a rename preserves
the first 14 characters — the timestampCode — of the name. -/
theorem process_frame (H : Bytes → Nat) (fs : FS) (fileName : String) :
    countRenames (tdsMD5retagFunc H fs fileName).effects ≤ 1 ∧
    countDeletes (tdsMD5retagFunc H fs fileName).effects ≤ 1 ∧
    countTouches (tdsMD5retagFunc H fs fileName).effects ≤ 1 ∧
    (∀ d o nw, Effect.renamed d o nw ∈ (tdsMD5retagFunc H fs fileName).effects →
      o.data.take 14 = nw.data.take 14) ∧
    (∀ d n, Effect.deleted d n ∈ (tdsMD5retagFunc H fs fileName).effects →
      ∃ pe e1, fs.lookup d n = some pe ∧
        fs.lookup d (basenameStr fileName) = some e1 ∧
        hexdigest (H pe.content) = hexdigest (H e1.content)) ∧
    contentsFrom fs (tdsMD5retagFunc H fs fileName).fs := by
  cases hdir : saneDirname fileName with
  | none =>
    have hre : tdsMD5retagFunc H fs fileName = ⟨fs, Outcome.crash, [], false⟩ := by
      simp [tdsMD5retagFunc, hdir]
    rw [hre]
    refine ⟨by simp [countRenames], by simp [countDeletes], by simp [countTouches],
      ?_, ?_, contentsFrom_refl fs⟩
    · intro d o nw hmem
      simp at hmem
    · intro d n hmem
      simp at hmem
  | some dir =>
    by_cases hd : dir ∈ fs.dirs
    · cases hb : fs.lookup dir (basenameStr fileName) with
      | none =>
        have hre : tdsMD5retagFunc H fs fileName =
            ⟨fs, Outcome.fail Err.NoSuchFile, [], false⟩ := by
          simp [tdsMD5retagFunc, hdir, hd, hb]
        rw [hre]
        refine ⟨by simp [countRenames], by simp [countDeletes], by simp [countTouches],
          ?_, ?_, contentsFrom_refl fs⟩
        · intro d o nw hmem
          simp at hmem
        · intro d n hmem
          simp at hmem
      | some e =>
        cases hp : parseBase (basenameStr fileName) with
        | invalid =>
          have hre : tdsMD5retagFunc H fs fileName =
              ⟨fs, Outcome.fail Err.UnrecognizedFilenameForm, [], false⟩ := by
            simp [tdsMD5retagFunc, hdir, hd, hb, hp]
          rw [hre]
          refine ⟨by simp [countRenames], by simp [countDeletes], by simp [countTouches],
            ?_, ?_, contentsFrom_refl fs⟩
          · intro d o nw hmem
            simp at hmem
          · intro d n hmem
            simp at hmem
        | fullForm tds dig =>
          rw [retag_mainPhase H fs fileName dir tds dig e hdir hd hb (Or.inl hp)]
          obtain ⟨-, htds, -, hlen⟩ := parseBase_full_eq (basenameStr fileName) tds dig hp
          have htds14 : tds.data.length = 14 := by
            rw [htds, List.length_take, hlen]
            decide
          exact mainPhase_frame H fs dir (basenameStr fileName) tds dig e hb htds.symm htds14
        | legacyForm tds =>
          rw [retag_mainPhase H fs fileName dir tds "" e hdir hd hb (Or.inr ⟨hp, rfl⟩)]
          obtain ⟨hbase, hlen14, -⟩ := parseBase_legacy_eq (basenameStr fileName) tds hp
          have htds14 : tds.data.length = 14 := by rw [← hbase]; exact hlen14
          have htds : (basenameStr fileName).data.take 14 = tds.data := by
            rw [hbase, ← htds14, List.take_length]
          exact mainPhase_frame H fs dir (basenameStr fileName) tds "" e hb htds htds14
    · have hre : tdsMD5retagFunc H fs fileName =
          ⟨fs, Outcome.fail Err.NoSuchDirectory, [], false⟩ := by
        simp [tdsMD5retagFunc, hdir, hd]
      rw [hre]
      refine ⟨by simp [countRenames], by simp [countDeletes], by simp [countTouches],
        ?_, ?_, contentsFrom_refl fs⟩
      · intro d o nw hmem
        simp at hmem
      · intro d n hmem
        simp at hmem

/-- Witness instance for C8 at a concrete run that performs a delete, a
rename and a timestamp update. -/
theorem process_frame_witness :
    countRenames (tdsMD5retagFunc hLen fsDup "20230101000000").effects ≤ 1 ∧
    countDeletes (tdsMD5retagFunc hLen fsDup "20230101000000").effects ≤ 1 ∧
    countTouches (tdsMD5retagFunc hLen fsDup "20230101000000").effects ≤ 1 :=
  ⟨(process_frame hLen fsDup "20230101000000").1,
   (process_frame hLen fsDup "20230101000000").2.1,
   (process_frame hLen fsDup "20230101000000").2.2.1⟩

/-- C5: a file whose base name matches the legacy form `^\d{14}$` is renamed
to `<timestampCode>.<digest>` (the digest in lowercase hex), and the rename
notice carries an empty old-digest field. -/
theorem legacy_renamed_with_empty_old_digest (H : Bytes → Nat) (fs : FS)
    (fileName dir tds : String) (e : FileEntry) (tm : TM)
    (hdir : saneDirname fileName = some dir) (hd : dir ∈ fs.dirs)
    (hb : fs.lookup dir (basenameStr fileName) = some e)
    (hp : parseBase (basenameStr fileName) = ParseForm.legacyForm tds)
    (ho : e.openable = true) (hr : e.readFails = false)
    (hnp : fs.lookup dir (tds ++ "." ++ hexdigest (H e.content)) = none)
    (hrn : e.renameOk = true)
    (hs : strptime14 tds = some tm) (hu : e.utimeOk = true) :
    (tdsMD5retagFunc H fs fileName).outcome =
      Outcome.ok (some (tds, "", hexdigest (H e.content))) ∧
    (tdsMD5retagFunc H fs fileName).effects =
      [Effect.renamed dir (basenameStr fileName) (tds ++ "." ++ hexdigest (H e.content)),
       Effect.touched dir (tds ++ "." ++ hexdigest (H e.content))] ∧
    (tdsMD5retagFunc H fs fileName).fs.lookup dir (tds ++ "." ++ hexdigest (H e.content)) =
      some (touchTimes (mktimeModel tm) e) ∧
    (tdsMD5retagFunc H fs fileName).fs.lookup dir (basenameStr fileName) = none ∧
    (hexdigest (H e.content)).data.all isLowerHexCh = true := by
  obtain ⟨hbase, hlen14, hdig14⟩ := parseBase_legacy_eq (basenameStr fileName) tds hp
  have hne : basenameStr fileName ≠ tds ++ "." ++ hexdigest (H e.content) := by
    rw [hbase]
    exact ne_append_dot tds (hexdigest (H e.content))
  rw [retag_mainPhase H fs fileName dir tds "" e hdir hd hb (Or.inr ⟨hp, rfl⟩)]
  have h1 := md5_ok H fs dir (basenameStr fileName) e hb ho hr
  have h2 : (renameFile fs dir (basenameStr fileName)
      (tds ++ "." ++ hexdigest (H e.content)) e).lookup dir
      (tds ++ "." ++ hexdigest (H e.content)) = some e := by
    rw [FS_lookup_renameFile]
    simp
  have h3 := tdsTouch_applied
    (renameFile fs dir (basenameStr fileName) (tds ++ "." ++ hexdigest (H e.content)) e)
    tds dir (tds ++ "." ++ hexdigest (H e.content)) tm e hs h2 hu
  simp [mainPhase, h1, hne, hnp, renamePhase, hrn, touchPhase, h3,
    FS_lookup_setTimes, FS_lookup_renameFile, h2, hexdigest_lower, Ne.symm hne]

/-- Witness for C5: the legacy file `20230101000000` of `fsLegacy` is
renamed to its canonical name under `hZero` and the notice has an empty
old-digest field. -/
theorem legacy_renamed_with_empty_old_digest_witness :
    (tdsMD5retagFunc hZero fsLegacy "20230101000000").outcome =
      Outcome.ok (some ("20230101000000", "", hexdigest (hZero entryW.content))) ∧
    (tdsMD5retagFunc hZero fsLegacy "20230101000000").effects =
      [Effect.renamed "." (basenameStr "20230101000000")
        ("20230101000000" ++ "." ++ hexdigest (hZero entryW.content)),
       Effect.touched "." ("20230101000000" ++ "." ++ hexdigest (hZero entryW.content))] ∧
    (tdsMD5retagFunc hZero fsLegacy "20230101000000").fs.lookup "."
      ("20230101000000" ++ "." ++ hexdigest (hZero entryW.content)) =
      some (touchTimes (mktimeModel ⟨2023, 1, 1, 0, 0, 0⟩) entryW) ∧
    (tdsMD5retagFunc hZero fsLegacy "20230101000000").fs.lookup "."
      (basenameStr "20230101000000") = none ∧
    (hexdigest (hZero entryW.content)).data.all isLowerHexCh = true :=
  legacy_renamed_with_empty_old_digest hZero fsLegacy "20230101000000" "." "20230101000000"
    entryW ⟨2023, 1, 1, 0, 0, 0⟩ (by decide) (by decide) (by decide) (by decide)
    (by decide) (by decide) (by decide) (by decide) (by decide) (by decide)

/-- C6: a full-form file whose digest portion already equals the computed
content digest is not renamed and no notice is emitted, but the timestamp
metadata encoded by the 14-digit code is still applied. -/
theorem canonical_touched_without_rename (H : Bytes → Nat) (fs : FS)
    (fileName dir tds dig : String) (e : FileEntry) (tm : TM)
    (hdir : saneDirname fileName = some dir) (hd : dir ∈ fs.dirs)
    (hb : fs.lookup dir (basenameStr fileName) = some e)
    (hp : parseBase (basenameStr fileName) = ParseForm.fullForm tds dig)
    (hdig : dig = hexdigest (H e.content))
    (ho : e.openable = true) (hr : e.readFails = false)
    (hs : strptime14 tds = some tm) (hu : e.utimeOk = true) :
    (tdsMD5retagFunc H fs fileName).outcome = Outcome.ok none ∧
    (tdsMD5retagFunc H fs fileName).effects =
      [Effect.touched dir (basenameStr fileName)] ∧
    (tdsMD5retagFunc H fs fileName).fs =
      setTimes fs dir (basenameStr fileName) (mktimeModel tm) ∧
    (tdsMD5retagFunc H fs fileName).fs.lookup dir (basenameStr fileName) =
      some (touchTimes (mktimeModel tm) e) := by
  subst hdig
  obtain ⟨hbase, -, -, -⟩ := parseBase_full_eq (basenameStr fileName) tds
    (hexdigest (H e.content)) hp
  rw [retag_mainPhase H fs fileName dir tds (hexdigest (H e.content)) e hdir hd hb (Or.inl hp)]
  have h1 := md5_ok H fs dir (basenameStr fileName) e hb ho hr
  rw [hbase] at h1
  have h2 : fs.lookup dir (tds ++ "." ++ hexdigest (H e.content)) = some e := hbase ▸ hb
  have h3 := tdsTouch_applied fs tds dir (tds ++ "." ++ hexdigest (H e.content)) tm e hs h2 hu
  rw [hbase]
  simp [mainPhase, h1, touchPhase, h3, FS_lookup_setTimes, h2]

/-- Witness for C6: the already-canonical file of `fsCanon` keeps its name,
gets no notice and has its timestamps set. -/
theorem canonical_touched_without_rename_witness :
    (tdsMD5retagFunc hZero fsCanon nameWZ).outcome = Outcome.ok none ∧
    (tdsMD5retagFunc hZero fsCanon nameWZ).effects =
      [Effect.touched "." (basenameStr nameWZ)] ∧
    (tdsMD5retagFunc hZero fsCanon nameWZ).fs =
      setTimes fsCanon "." (basenameStr nameWZ) (mktimeModel ⟨2023, 1, 1, 0, 0, 0⟩) ∧
    (tdsMD5retagFunc hZero fsCanon nameWZ).fs.lookup "." (basenameStr nameWZ) =
      some (touchTimes (mktimeModel ⟨2023, 1, 1, 0, 0, 0⟩) entryW) :=
  canonical_touched_without_rename hZero fsCanon nameWZ "." "20230101000000"
    (hexdigest (hZero entryW.content)) entryW ⟨2023, 1, 1, 0, 0, 0⟩ (by decide) (by decide)
    (by decide) (by decide) (by decide) (by decide) (by decide) (by decide) (by decide)

/-- C2: when the canonical target name is occupied by a pre-existing file
with identical content digest, `process` deletes the pre-existing file,
renames the processed file into its place, and succeeds with no error. -/
theorem duplicate_deleted_then_renamed (H : Bytes → Nat) (fs : FS)
    (fileName dir tds oldDig : String) (e pe : FileEntry) (tm : TM)
    (hdir : saneDirname fileName = some dir) (hd : dir ∈ fs.dirs)
    (hb : fs.lookup dir (basenameStr fileName) = some e)
    (hp : parseBase (basenameStr fileName) = ParseForm.fullForm tds oldDig ∨
      (parseBase (basenameStr fileName) = ParseForm.legacyForm tds ∧ oldDig = ""))
    (ho : e.openable = true) (hr : e.readFails = false)
    (hne : basenameStr fileName ≠ tds ++ "." ++ hexdigest (H e.content))
    (hpe : fs.lookup dir (tds ++ "." ++ hexdigest (H e.content)) = some pe)
    (hpo : pe.openable = true) (hpr : pe.readFails = false)
    (heq : hexdigest (H pe.content) = hexdigest (H e.content))
    (hrm : pe.removeOk = true) (hrn : e.renameOk = true)
    (hs : strptime14 tds = some tm) (hu : e.utimeOk = true) :
    (tdsMD5retagFunc H fs fileName).outcome =
      Outcome.ok (some (tds, oldDig, hexdigest (H e.content))) ∧
    (tdsMD5retagFunc H fs fileName).effects =
      [Effect.deleted dir (tds ++ "." ++ hexdigest (H e.content)),
       Effect.renamed dir (basenameStr fileName) (tds ++ "." ++ hexdigest (H e.content)),
       Effect.touched dir (tds ++ "." ++ hexdigest (H e.content))] ∧
    (tdsMD5retagFunc H fs fileName).fs.lookup dir (basenameStr fileName) = none ∧
    (tdsMD5retagFunc H fs fileName).fs.lookup dir (tds ++ "." ++ hexdigest (H e.content)) =
      some (touchTimes (mktimeModel tm) e) := by
  rw [retag_mainPhase H fs fileName dir tds oldDig e hdir hd hb hp]
  have h1 := md5_ok H fs dir (basenameStr fileName) e hb ho hr
  have h2 := md5_ok H fs dir (tds ++ "." ++ hexdigest (H e.content)) pe hpe hpo hpr
  have h4 : (renameFile (removeFile fs dir (tds ++ "." ++ hexdigest (H e.content))) dir
      (basenameStr fileName) (tds ++ "." ++ hexdigest (H e.content)) e).lookup dir
      (tds ++ "." ++ hexdigest (H e.content)) = some e := by
    rw [FS_lookup_renameFile]
    simp
  have h3 := tdsTouch_applied
    (renameFile (removeFile fs dir (tds ++ "." ++ hexdigest (H e.content))) dir
      (basenameStr fileName) (tds ++ "." ++ hexdigest (H e.content)) e)
    tds dir (tds ++ "." ++ hexdigest (H e.content)) tm e hs h4 hu
  simp [mainPhase, h1, h2, hne, hpe, heq, hrm, renamePhase, hrn, touchPhase, h3,
    FS_lookup_setTimes, FS_lookup_renameFile, h4, Ne.symm hne]

/-- Witness for C2: the legacy file of `fsDup` has, under `hLen`, the same
digest as the occupant of its canonical name; the occupant is deleted, the
file renamed into its place, and the call succeeds. -/
theorem duplicate_deleted_then_renamed_witness :
    (tdsMD5retagFunc hLen fsDup "20230101000000").outcome =
      Outcome.ok (some ("20230101000000", "", hexdigest (hLen entryW.content))) ∧
    (tdsMD5retagFunc hLen fsDup "20230101000000").effects =
      [Effect.deleted "." ("20230101000000" ++ "." ++ hexdigest (hLen entryW.content)),
       Effect.renamed "." (basenameStr "20230101000000")
        ("20230101000000" ++ "." ++ hexdigest (hLen entryW.content)),
       Effect.touched "." ("20230101000000" ++ "." ++ hexdigest (hLen entryW.content))] ∧
    (tdsMD5retagFunc hLen fsDup "20230101000000").fs.lookup "."
      (basenameStr "20230101000000") = none ∧
    (tdsMD5retagFunc hLen fsDup "20230101000000").fs.lookup "."
      ("20230101000000" ++ "." ++ hexdigest (hLen entryW.content)) =
      some (touchTimes (mktimeModel ⟨2023, 1, 1, 0, 0, 0⟩) entryW) :=
  duplicate_deleted_then_renamed hLen fsDup "20230101000000" "." "20230101000000" ""
    entryW entryW3 ⟨2023, 1, 1, 0, 0, 0⟩ (by decide) (by decide) (by decide)
    (Or.inr ⟨by decide, rfl⟩) (by decide) (by decide) (by decide) (by decide) (by decide)
    (by decide) (by decide) (by decide) (by decide) (by decide) (by decide)

theorem setTimesList_idem (l : List ((String × String) × FileEntry))
    (k : String × String) (t : Int) :
    setTimesList (setTimesList l k t) k t = setTimesList l k t := by
  induction l with
  | nil => rfl
  | cons p tl ih =>
    by_cases hp : p.1 = k
    · simp [setTimesList, hp, ih, touchTimes]
    · simp [setTimesList, hp, ih]

theorem setTimes_idem (fs : FS) (d n : String) (t : Int) :
    setTimes (setTimes fs d n t) d n t = setTimes fs d n t := by
  simp [setTimes, setTimesList_idem]

theorem md5_ok_flags (H : Bytes → Nat) (fs : FS) (dir f m : String) (e : FileEntry)
    (hb : fs.lookup dir f = some e) (h : md5stringForFile H fs dir f = DigestResult.ok m) :
    e.openable = true ∧ e.readFails = false := by
  simp only [md5stringForFile, hb] at h
  by_cases ho : e.openable = true
  · by_cases hr : e.readFails = true
    · simp [ho, hr] at h
    · exact ⟨ho, by simpa using hr⟩
  · have ho2 : e.openable = false := by simpa using ho
    simp [ho2] at h

/-- The three possible results of the rename-then-timestamp phase when the
`os.rename` itself succeeds. -/
theorem renamePhase_cases_ok (fs : FS) (e : FileEntry) (tds dir base proposed : String)
    (notice : Option (String × String × String)) (effs : List Effect) (w : Bool)
    (hrn : e.renameOk = true) :
    (∃ t, renamePhase fs e tds dir base proposed notice effs w =
        ⟨setTimes (renameFile fs dir base proposed e) dir proposed t, Outcome.ok notice,
          effs ++ [Effect.renamed dir base proposed, Effect.touched dir proposed], w⟩) ∨
    renamePhase fs e tds dir base proposed notice effs w =
      ⟨renameFile fs dir base proposed e, Outcome.fail Err.TimestampApplyFailed,
        effs ++ [Effect.renamed dir base proposed], w⟩ ∨
    renamePhase fs e tds dir base proposed notice effs w =
      ⟨renameFile fs dir base proposed e, Outcome.crash,
        effs ++ [Effect.renamed dir base proposed], w⟩ := by
  unfold renamePhase
  rw [if_pos hrn]
  rcases touchPhase_cases (renameFile fs dir base proposed e) tds dir proposed notice
      (effs ++ [Effect.renamed dir base proposed]) w with ⟨t, ht⟩ | ht | ht
  · left
    refine ⟨t, ?_⟩
    rw [ht]
    simp
  · right; left
    rw [ht]
  · right; right
    rw [ht]

/-- A second invocation on a filesystem where the base name is gone fails
with `NoSuchFile` and performs nothing. -/
theorem second_call_noSuchFile (H : Bytes → Nat) (fsX : FS) (fileName dir : String)
    (hdir : saneDirname fileName = some dir) (hdX : dir ∈ fsX.dirs)
    (hbn : fsX.lookup dir (basenameStr fileName) = none) :
    tdsMD5retagFunc H fsX fileName = ⟨fsX, Outcome.fail Err.NoSuchFile, [], false⟩ := by
  simp [tdsMD5retagFunc, hdir, hdX, hbn]

/-- After a rename followed by a timestamp update, nothing is left under the
old name. -/
theorem lookup_base_after_rename_setTimes (fsX : FS) (dir base prop : String)
    (e : FileEntry) (t : Int) (hne : base ≠ prop) :
    (setTimes (renameFile fsX dir base prop e) dir prop t).lookup dir base = none := by
  rw [FS_lookup_setTimes, if_neg (fun hh => hne (congrArg Prod.snd hh)), FS_lookup_renameFile,
    if_neg (fun hh => hne (congrArg Prod.snd hh)), if_pos rfl]

/-- After a rename, nothing is left under the old name. -/
theorem lookup_base_after_rename (fsX : FS) (dir base prop : String) (e : FileEntry)
    (hne : base ≠ prop) :
    (renameFile fsX dir base prop e).lookup dir base = none := by
  rw [FS_lookup_renameFile, if_neg (fun hh => hne (congrArg Prod.snd hh)), if_pos rfl]

/-- Idempotence of the reconciliation core: running `mainPhase` and then the
whole of `tdsMD5retagFunc` again on the same path performs no rename the
second time and leaves the filesystem exactly as the first run left it. -/
theorem mainPhase_idem (H : Bytes → Nat) (fs : FS) (fileName dir tds oldDig : String)
    (e : FileEntry)
    (hdir : saneDirname fileName = some dir) (hd : dir ∈ fs.dirs)
    (hb : fs.lookup dir (basenameStr fileName) = some e)
    (hp : parseBase (basenameStr fileName) = ParseForm.fullForm tds oldDig ∨
      (parseBase (basenameStr fileName) = ParseForm.legacyForm tds ∧ oldDig = "")) :
    hasRename (tdsMD5retagFunc H
      (mainPhase H fs dir (basenameStr fileName) e tds oldDig).fs fileName).effects = false ∧
    (tdsMD5retagFunc H
      (mainPhase H fs dir (basenameStr fileName) e tds oldDig).fs fileName).fs =
      (mainPhase H fs dir (basenameStr fileName) e tds oldDig).fs := by
  cases hm : md5stringForFile H fs dir (basenameStr fileName) with
  | crashed =>
    have hre1 : mainPhase H fs dir (basenameStr fileName) e tds oldDig =
        ⟨fs, Outcome.crash, [], countTds fs dir tds != 1⟩ := by
      simp [mainPhase, hm]
    simp only [hre1]
    rw [retag_mainPhase H fs fileName dir tds oldDig e hdir hd hb hp, hre1]
    simp [hasRename]
  | failed =>
    have hre1 : mainPhase H fs dir (basenameStr fileName) e tds oldDig =
        ⟨fs, Outcome.fail Err.DigestComputationError, [], countTds fs dir tds != 1⟩ := by
      simp [mainPhase, hm]
    simp only [hre1]
    rw [retag_mainPhase H fs fileName dir tds oldDig e hdir hd hb hp, hre1]
    simp [hasRename]
  | ok md5 =>
    obtain ⟨ho, hr⟩ := md5_ok_flags H fs dir (basenameStr fileName) md5 e hb hm
    have hmd5 : md5 = hexdigest (H e.content) :=
      md5_ok_inversion H fs dir (basenameStr fileName) md5 e hb hm
    by_cases hbp : basenameStr fileName = tds ++ "." ++ md5
    · have hbprop : fs.lookup dir (tds ++ "." ++ md5) = some e := hbp ▸ hb
      cases hs : strptime14 tds with
      | none =>
        have hre1 : mainPhase H fs dir (basenameStr fileName) e tds oldDig =
            ⟨fs, Outcome.fail Err.TimestampApplyFailed, [], countTds fs dir tds != 1⟩ := by
          simp only [mainPhase, hm]
          rw [if_pos hbp]
          simp [touchPhase, tdsTouch, hs]
        simp only [hre1]
        rw [retag_mainPhase H fs fileName dir tds oldDig e hdir hd hb hp, hre1]
        simp [hasRename]
      | some tm =>
        by_cases hu : e.utimeOk = true
        · have hre1 : mainPhase H fs dir (basenameStr fileName) e tds oldDig =
              ⟨setTimes fs dir (tds ++ "." ++ md5) (mktimeModel tm), Outcome.ok none,
                [Effect.touched dir (tds ++ "." ++ md5)], countTds fs dir tds != 1⟩ := by
            simp only [mainPhase, hm]
            rw [if_pos hbp]
            simp [touchPhase, tdsTouch, hs, hbprop, hu]
          have hb2 : (setTimes fs dir (tds ++ "." ++ md5) (mktimeModel tm)).lookup dir
              (basenameStr fileName) = some (touchTimes (mktimeModel tm) e) := by
            rw [FS_lookup_setTimes, hbp]
            simp [hbprop]
          have hm2 : md5stringForFile H (setTimes fs dir (tds ++ "." ++ md5) (mktimeModel tm))
              dir (basenameStr fileName) = DigestResult.ok md5 := by
            simp [md5stringForFile, hb2, touchTimes, ho, hr, hmd5.symm]
          have hb2p : (setTimes fs dir (tds ++ "." ++ md5) (mktimeModel tm)).lookup dir
              (tds ++ "." ++ md5) = some (touchTimes (mktimeModel tm) e) := by
            rw [FS_lookup_setTimes, if_pos rfl, hbprop]
            rfl
          have hre2 : tdsMD5retagFunc H (setTimes fs dir (tds ++ "." ++ md5) (mktimeModel tm))
              fileName =
              ⟨setTimes (setTimes fs dir (tds ++ "." ++ md5) (mktimeModel tm)) dir
                  (tds ++ "." ++ md5) (mktimeModel tm), Outcome.ok none,
                [Effect.touched dir (tds ++ "." ++ md5)],
                countTds (setTimes fs dir (tds ++ "." ++ md5) (mktimeModel tm)) dir tds != 1⟩ := by
            rw [retag_mainPhase H (setTimes fs dir (tds ++ "." ++ md5) (mktimeModel tm)) fileName
              dir tds oldDig (touchTimes (mktimeModel tm) e) hdir hd hb2 hp]
            simp only [mainPhase, hm2]
            rw [if_pos hbp]
            simp [touchPhase, tdsTouch, hs, hb2p, touchTimes, hu]
          simp only [hre1]
          rw [hre2]
          simp [hasRename, setTimes_idem]
        · have hre1 : mainPhase H fs dir (basenameStr fileName) e tds oldDig =
              ⟨fs, Outcome.fail Err.TimestampApplyFailed, [], countTds fs dir tds != 1⟩ := by
            simp only [mainPhase, hm]
            rw [if_pos hbp]
            simp [touchPhase, tdsTouch, hs, hbprop, hu]
          simp only [hre1]
          rw [retag_mainPhase H fs fileName dir tds oldDig e hdir hd hb hp, hre1]
          simp [hasRename]
    · cases hpe : fs.lookup dir (tds ++ "." ++ md5) with
      | some pe =>
        cases hm2 : md5stringForFile H fs dir (tds ++ "." ++ md5) with
        | crashed =>
          have hre1 : mainPhase H fs dir (basenameStr fileName) e tds oldDig =
              ⟨fs, Outcome.crash, [], countTds fs dir tds != 1⟩ := by
            simp [mainPhase, hm, hbp, hpe, hm2]
          simp only [hre1]
          rw [retag_mainPhase H fs fileName dir tds oldDig e hdir hd hb hp, hre1]
          simp [hasRename]
        | failed =>
          have hre1 : mainPhase H fs dir (basenameStr fileName) e tds oldDig =
              ⟨fs, Outcome.fail Err.DigestComputationError, [], countTds fs dir tds != 1⟩ := by
            simp [mainPhase, hm, hbp, hpe, hm2]
          simp only [hre1]
          rw [retag_mainPhase H fs fileName dir tds oldDig e hdir hd hb hp, hre1]
          simp [hasRename]
        | ok md5p =>
          by_cases heq : md5 = md5p
          · by_cases hrm : pe.removeOk = true
            · by_cases hrn : e.renameOk = true
              · have hre0 : mainPhase H fs dir (basenameStr fileName) e tds oldDig =
                    renamePhase (removeFile fs dir (tds ++ "." ++ md5)) e tds dir
                      (basenameStr fileName) (tds ++ "." ++ md5) (some (tds, oldDig, md5))
                      [Effect.deleted dir (tds ++ "." ++ md5)] (countTds fs dir tds != 1) := by
                  simp [mainPhase, hm, hbp, hpe, hm2, hrm]
                  exact fun hcon => absurd heq hcon
                rcases renamePhase_cases_ok (removeFile fs dir (tds ++ "." ++ md5)) e tds dir
                    (basenameStr fileName) (tds ++ "." ++ md5) (some (tds, oldDig, md5))
                    [Effect.deleted dir (tds ++ "." ++ md5)] (countTds fs dir tds != 1) hrn with
                    ⟨t, ht⟩ | ht | ht
                · have hbn := lookup_base_after_rename_setTimes
                    (removeFile fs dir (tds ++ "." ++ md5)) dir (basenameStr fileName)
                    (tds ++ "." ++ md5) e t hbp
                  have hre2 := second_call_noSuchFile H
                    (setTimes (renameFile (removeFile fs dir (tds ++ "." ++ md5)) dir
                      (basenameStr fileName) (tds ++ "." ++ md5) e) dir (tds ++ "." ++ md5) t)
                    fileName dir hdir hd hbn
                  simp only [hre0, ht]
                  rw [hre2]
                  simp [hasRename]
                · have hbn := lookup_base_after_rename (removeFile fs dir (tds ++ "." ++ md5))
                    dir (basenameStr fileName) (tds ++ "." ++ md5) e hbp
                  have hre2 := second_call_noSuchFile H
                    (renameFile (removeFile fs dir (tds ++ "." ++ md5)) dir
                      (basenameStr fileName) (tds ++ "." ++ md5) e)
                    fileName dir hdir hd hbn
                  simp only [hre0, ht]
                  rw [hre2]
                  simp [hasRename]
                · have hbn := lookup_base_after_rename (removeFile fs dir (tds ++ "." ++ md5))
                    dir (basenameStr fileName) (tds ++ "." ++ md5) e hbp
                  have hre2 := second_call_noSuchFile H
                    (renameFile (removeFile fs dir (tds ++ "." ++ md5)) dir
                      (basenameStr fileName) (tds ++ "." ++ md5) e)
                    fileName dir hdir hd hbn
                  simp only [hre0, ht]
                  rw [hre2]
                  simp [hasRename]
              · have hre1 : mainPhase H fs dir (basenameStr fileName) e tds oldDig =
                    ⟨removeFile fs dir (tds ++ "." ++ md5), Outcome.fail Err.RenameFailed,
                      [Effect.deleted dir (tds ++ "." ++ md5)], countTds fs dir tds != 1⟩ := by
                  simp [mainPhase, hm, hbp, hpe, hm2, hrm, renamePhase, hrn]
                  exact heq
                have hbE : (removeFile fs dir (tds ++ "." ++ md5)).lookup dir
                    (basenameStr fileName) = some e := by
                  rw [FS_lookup_removeFile, if_neg (fun hh => hbp (congrArg Prod.snd hh))]
                  exact hb
                have hmE : md5stringForFile H (removeFile fs dir (tds ++ "." ++ md5)) dir
                    (basenameStr fileName) = DigestResult.ok md5 := by
                  simp [md5stringForFile, hbE, ho, hr, hmd5.symm]
                have hpeE : (removeFile fs dir (tds ++ "." ++ md5)).lookup dir
                    (tds ++ "." ++ md5) = none := by
                  rw [FS_lookup_removeFile, if_pos rfl]
                have hre2 : tdsMD5retagFunc H (removeFile fs dir (tds ++ "." ++ md5)) fileName =
                    ⟨removeFile fs dir (tds ++ "." ++ md5), Outcome.fail Err.RenameFailed, [],
                      countTds (removeFile fs dir (tds ++ "." ++ md5)) dir tds != 1⟩ := by
                  rw [retag_mainPhase H (removeFile fs dir (tds ++ "." ++ md5)) fileName dir tds
                    oldDig e hdir hd hbE hp]
                  simp [mainPhase, hmE, hbp, hpeE, renamePhase, hrn]
                simp only [hre1]
                rw [hre2]
                simp [hasRename]
            · have hre1 : mainPhase H fs dir (basenameStr fileName) e tds oldDig =
                  ⟨fs, Outcome.crash, [], countTds fs dir tds != 1⟩ := by
                simp [mainPhase, hm, hbp, hpe, hm2, hrm]
                exact heq
              simp only [hre1]
              rw [retag_mainPhase H fs fileName dir tds oldDig e hdir hd hb hp, hre1]
              simp [hasRename]
          · have hre1 : mainPhase H fs dir (basenameStr fileName) e tds oldDig =
                ⟨fs, Outcome.fail Err.NameCollision, [], countTds fs dir tds != 1⟩ := by
              simp [mainPhase, hm, hbp, hpe, hm2]
              exact fun hcon => absurd hcon heq
            simp only [hre1]
            rw [retag_mainPhase H fs fileName dir tds oldDig e hdir hd hb hp, hre1]
            simp [hasRename]
      | none =>
        by_cases hrn : e.renameOk = true
        · have hre0 : mainPhase H fs dir (basenameStr fileName) e tds oldDig =
              renamePhase fs e tds dir (basenameStr fileName) (tds ++ "." ++ md5)
                (some (tds, oldDig, md5)) [] (countTds fs dir tds != 1) := by
            simp [mainPhase, hm, hbp, hpe]
          rcases renamePhase_cases_ok fs e tds dir (basenameStr fileName) (tds ++ "." ++ md5)
              (some (tds, oldDig, md5)) [] (countTds fs dir tds != 1) hrn with ⟨t, ht⟩ | ht | ht
          · have hbn := lookup_base_after_rename_setTimes fs dir (basenameStr fileName)
              (tds ++ "." ++ md5) e t hbp
            have hre2 := second_call_noSuchFile H
              (setTimes (renameFile fs dir (basenameStr fileName) (tds ++ "." ++ md5) e) dir
                (tds ++ "." ++ md5) t)
              fileName dir hdir hd hbn
            simp only [hre0, ht]
            rw [hre2]
            simp [hasRename]
          · have hbn := lookup_base_after_rename fs dir (basenameStr fileName)
              (tds ++ "." ++ md5) e hbp
            have hre2 := second_call_noSuchFile H
              (renameFile fs dir (basenameStr fileName) (tds ++ "." ++ md5) e)
              fileName dir hdir hd hbn
            simp only [hre0, ht]
            rw [hre2]
            simp [hasRename]
          · have hbn := lookup_base_after_rename fs dir (basenameStr fileName)
              (tds ++ "." ++ md5) e hbp
            have hre2 := second_call_noSuchFile H
              (renameFile fs dir (basenameStr fileName) (tds ++ "." ++ md5) e)
              fileName dir hdir hd hbn
            simp only [hre0, ht]
            rw [hre2]
            simp [hasRename]
        · have hre1 : mainPhase H fs dir (basenameStr fileName) e tds oldDig =
              ⟨fs, Outcome.fail Err.RenameFailed, [], countTds fs dir tds != 1⟩ := by
            simp [mainPhase, hm, hbp, hpe, renamePhase, hrn]
          simp only [hre1]
          rw [retag_mainPhase H fs fileName dir tds oldDig e hdir hd hb hp, hre1]
          simp [hasRename]

/-- C7: `process` is idempotent: invoking it twice in succession on the same
path with no external modification between the calls performs no rename on
the second call and leaves the filesystem — in particular every file's
timestamp metadata — identical to what the first call established. -/
theorem process_idempotent (H : Bytes → Nat) (fs : FS) (fileName : String) :
    hasRename (tdsMD5retagFunc H (tdsMD5retagFunc H fs fileName).fs fileName).effects = false ∧
    (tdsMD5retagFunc H (tdsMD5retagFunc H fs fileName).fs fileName).fs =
      (tdsMD5retagFunc H fs fileName).fs := by
  cases hdir : saneDirname fileName with
  | none =>
    have hre1 : tdsMD5retagFunc H fs fileName = ⟨fs, Outcome.crash, [], false⟩ := by
      simp [tdsMD5retagFunc, hdir]
    simp only [hre1]
    simp [hasRename]
  | some dir =>
    by_cases hd : dir ∈ fs.dirs
    · cases hb : fs.lookup dir (basenameStr fileName) with
      | none =>
        have hre1 : tdsMD5retagFunc H fs fileName =
            ⟨fs, Outcome.fail Err.NoSuchFile, [], false⟩ := by
          simp [tdsMD5retagFunc, hdir, hd, hb]
        simp only [hre1]
        simp [hasRename]
      | some e =>
        cases hp : parseBase (basenameStr fileName) with
        | invalid =>
          have hre1 : tdsMD5retagFunc H fs fileName =
              ⟨fs, Outcome.fail Err.UnrecognizedFilenameForm, [], false⟩ := by
            simp [tdsMD5retagFunc, hdir, hd, hb, hp]
          simp only [hre1]
          simp [hasRename]
        | fullForm tds dig =>
          rw [retag_mainPhase H fs fileName dir tds dig e hdir hd hb (Or.inl hp)]
          exact mainPhase_idem H fs fileName dir tds dig e hdir hd hb (Or.inl hp)
        | legacyForm tds =>
          rw [retag_mainPhase H fs fileName dir tds "" e hdir hd hb (Or.inr ⟨hp, rfl⟩)]
          exact mainPhase_idem H fs fileName dir tds "" e hdir hd hb (Or.inr ⟨hp, rfl⟩)
    · have hre1 : tdsMD5retagFunc H fs fileName =
          ⟨fs, Outcome.fail Err.NoSuchDirectory, [], false⟩ := by
        simp [tdsMD5retagFunc, hdir, hd]
      simp only [hre1]
      simp [hasRename]

end TdsMD5Retag
